import Mathlib

/-!
Shallow embedding of `color_dominant.py` (repository Symonovskyi/Color-Dominant).

Modelling conventions:
* Python floats are modelled by exact rationals `ℚ`; the machine
  arithmetic performed by the script on the values relevant here
  (integer sums below 2^53, halves, division by small integers) is exact,
  so the rational model agrees with the float execution on those values.
* The external world is an `Env` record of oracles:
  `pathExists` is `os.path.exists`; `cluster path k` is the composite
  `Image.open` / decode / normalize / `KMeans(n_clusters=k).fit`
  pipeline, returning the cluster centers (each a float RGB triple of
  the normalized pixels) or `none` when any of those raises;
  `renderFails` tells whether `display_color_palette` raises on a given
  list; `walk` is `os.walk` restricted to the (root, files) components.
* Python exceptions are values of `PyExc`: `fileNotFound` for
  `FileNotFoundError`, `other` for every other `Exception`.
* The global `color_cache` dict and the log stream are passed and
  returned explicitly.  Only `info`- and `error`-level records are
  tracked; `debug` records are irrelevant to every property studied.
-/

namespace ColorDominant

/-- Severity of a tracked log record (`logging.info` / `logging.error`). -/
inductive LogEntry
  | info
  | error
deriving DecidableEq, Repr

/-- Exceptions of the Python runtime that the script can raise or catch.
Both constructors are subclasses of Python `Exception`. -/
inductive PyExc
  | fileNotFound
  | other
deriving DecidableEq, Repr

/-- A float RGB triple (channel values are normalized to [0,1] at the
points where `rgb2hex` is applied). -/
abbrev Rgb := ℚ × ℚ × ℚ

/-- The global `color_cache` dict, keyed by image path. -/
abbrev Cache := List (String × List String)

/-- Insertion into a Python dict modelled as an ordered association
list: replacing an existing key keeps its position, a new key is
appended at the end (Python dicts preserve insertion order). -/
def dictInsert {β : Type} (d : List (String × β)) (k : String) (v : β) :
    List (String × β) :=
  match d with
  | [] => [(k, v)]
  | (k1, v1) :: rest => if k1 = k then (k, v) :: rest else (k1, v1) :: dictInsert rest k v

/-- Lookup in a Python dict modelled as an association list
(`key in d` followed by `d[key]`). -/
def dictGet {β : Type} (d : List (String × β)) (k : String) : Option β :=
  match d with
  | [] => none
  | (k1, v1) :: rest => if k1 = k then some v1 else dictGet rest k

/-- Round to the nearest integer with ties going to the even integer:
the rounding performed by Python `round` / `numpy.round` on exact halves. -/
def roundHalfEven (q : ℚ) : ℤ :=
  if q - ⌊q⌋ = 1/2 then (if Even ⌊q⌋ then ⌊q⌋ else ⌊q⌋ + 1) else round q

/-- Lowercase hex digit for a value below 16 (48 is the code of the
character 0, 87 + 10 is the code of the character a). -/
def hexDigitChar (n : ℕ) : Char :=
  if n < 10 then Char.ofNat (48 + n) else Char.ofNat (87 + n)

/-- Two lowercase hex digits: the Python format `%02x` applied to a byte. -/
def hexByte (n : ℕ) : List Char :=
  [hexDigitChar (n / 16), hexDigitChar (n % 16)]

/-- matplotlib `rgb2hex`: `to_rgba` first validates that every channel
lies in [0,1] and raises `ValueError` otherwise (modelled by `none`);
on success each channel is printed as `round(v * 255)` in two hex
digits after a leading `#`. -/
def rgb2hex (c : Rgb) : Option String :=
  if 0 ≤ c.1 ∧ c.1 ≤ 1 ∧ 0 ≤ c.2.1 ∧ c.2.1 ≤ 1 ∧ 0 ≤ c.2.2 ∧ c.2.2 ≤ 1 then
    some (String.mk ('#' :: (hexByte (roundHalfEven (c.1 * 255)).toNat ++
      (hexByte (roundHalfEven (c.2.1 * 255)).toNat ++
        hexByte (roundHalfEven (c.2.2 * 255)).toNat))))
  else none

/-- Evaluation of a Python list comprehension whose body may raise:
`none` as soon as one element fails, otherwise the list of results. -/
def mapOpt {α β : Type} (f : α → Option β) : List α → Option (List β)
  | [] => some []
  | a :: rest =>
    match f a with
    | none => none
    | some b =>
      match mapOpt f rest with
      | none => none
      | some bs => some (b :: bs)

/-- Oracles for the world outside the script: file system, image
decoding plus KMeans clustering, the matplotlib window, `os.walk`. -/
structure Env where
  pathExists : String → Bool
  cluster : String → ℕ → Option (List Rgb)
  renderFails : List String → Bool
  walk : String → List (String × List String)

/-- Value returned by `extract_colors` together with the state of the
global cache and the tracked log records the call appended. -/
structure ExtractOut where
  ret : List String
  cache : Cache
  log : List LogEntry
deriving DecidableEq, Repr

/-- Body of the `try:` block of `extract_colors` (lines 25-63 of
`color_dominant.py`): existence check, cache lookup, decode and
cluster, hex conversion, cache write, optional palette display.
The result is `Except.error e` when the block raises `e`. -/
def extract_colors_try (env : Env) (cache : Cache) (image_path : String)
    (num_colors : ℕ) (display_palette : Bool) :
    Except PyExc (List String) × Cache × List LogEntry :=
  if env.pathExists image_path = false then
    (Except.error PyExc.fileNotFound, cache, [])
  else
    match dictGet cache image_path with
    | some cached => (Except.ok cached, cache, [LogEntry.info])
    | none =>
      match env.cluster image_path num_colors with
      | none => (Except.error PyExc.other, cache, [])
      | some dominant_colors =>
        match mapOpt rgb2hex dominant_colors with
        | none => (Except.error PyExc.other, cache, [])
        | some dominant_colors_hex =>
          let cache1 := dictInsert cache image_path dominant_colors_hex
          if display_palette && env.renderFails dominant_colors_hex then
            (Except.error PyExc.other, cache1, [])
          else
            (Except.ok dominant_colors_hex, cache1, [])

/-- `extract_colors(image_path, num_colors, display_palette)`: the
`try` body above wrapped in the two `except` clauses, which catch
`FileNotFoundError` and every other `Exception`, log one error-level
record and return the empty list.  The function always returns
normally: no exception escapes to the caller. -/
def extract_colors (env : Env) (cache : Cache) (image_path : String)
    (num_colors : ℕ) (display_palette : Bool) : ExtractOut :=
  match extract_colors_try env cache image_path num_colors display_palette with
  | (Except.ok v, c, l) => ⟨v, c, l⟩
  | (Except.error _, c, l) => ⟨[], c, l ++ [LogEntry.error]⟩

/-- Value of a single hex digit character, as accepted by Python
`int(_, 16)` (48-57 are the digit characters, 97-102 lowercase a-f,
65-70 uppercase A-F). -/
def hexDigitVal (ch : Char) : Option ℕ :=
  if 48 ≤ ch.toNat ∧ ch.toNat ≤ 57 then some (ch.toNat - 48)
  else if 97 ≤ ch.toNat ∧ ch.toNat ≤ 102 then some (ch.toNat - 87)
  else if 65 ≤ ch.toNat ∧ ch.toNat ≤ 70 then some (ch.toNat - 55)
  else none

/-- Python `int(s, 16)` on a string of bare hex digits; `none` models
the `ValueError` raised on an empty slice or a non-digit character. -/
def int16 (cs : List Char) : Option ℕ :=
  match cs with
  | [] => none
  | _ =>
    cs.foldl (fun acc ch => acc.bind (fun a => (hexDigitVal ch).map (fun d => 16 * a + d)))
      (some 0)

/-- Channel decoding performed by the aggregation loop of
`analyze_directory`: `int(color[1:3], 16)`, `int(color[3:5], 16)`,
`int(color[5:7], 16)` on the three slices of the hex string. -/
def decodeColor (color : String) : Option (ℕ × ℕ × ℕ) :=
  let cs := color.toList
  match int16 ((cs.drop 1).take 2), int16 ((cs.drop 3).take 2), int16 ((cs.drop 5).take 2) with
  | some r, some g, some b => some (r, g, b)
  | _, _, _ => none

/-- The tuple `SUPPORTED_FORMATS` of `color_dominant.py`. -/
def SUPPORTED_FORMATS : List String := [".png", ".jpg", ".jpeg", ".bmp", ".tiff"]

/-- Python `str.lower()`, character by character. -/
def strLower (s : String) : String :=
  String.mk (s.toList.map Char.toLower)

/-- Python `s.endswith(suffix)`: suffix test on the character sequences. -/
def strEndsWith (s suffix : String) : Bool :=
  suffix.toList.isSuffixOf s.toList

/-- `file.lower().endswith(SUPPORTED_FORMATS)`: a tuple argument of
`str.endswith` succeeds when any of its members is a suffix. -/
def supportedFile (file : String) : Bool :=
  SUPPORTED_FORMATS.any (fun ext => strEndsWith (strLower file) ext)

/-- `os.path.join(root, file)` for the shapes reachable from `os.walk`
(a relative file name joined below a directory). -/
def pathJoin (root file : String) : String :=
  if root = "" then file
  else if strEndsWith root "/" then root ++ file
  else root ++ "/" ++ file

/-- Componentwise sum of two RGB byte triples (`aggregate_colors[i] += ...`). -/
def addTriple (a b : ℕ × ℕ × ℕ) : ℕ × ℕ × ℕ :=
  (a.1 + b.1, a.2.1 + b.2.1, a.2.2 + b.2.2)

/-- The inner aggregation loop
`for i, color in enumerate(colors): aggregate_colors[i] += np.array([...])`
starting at index `i`; `none` models the uncaught `ValueError` that
`int` raises on a malformed entry. -/
def accumPalette : (ℕ → ℕ × ℕ × ℕ) → ℕ → List String → Option (ℕ → ℕ × ℕ × ℕ)
  | agg, _, [] => some agg
  | agg, i, color :: rest =>
    match decodeColor color with
    | none => none
    | some d => accumPalette (Function.update agg i (addTriple (agg i) d)) (i + 1) rest

/-- Mutable state of `analyze_directory` while its file loop runs:
`results`, `aggregate_colors` (a `defaultdict` of zero triples),
`image_count`, plus the global cache and the tracked log records. -/
structure DirSt where
  results : List (String × List String)
  aggregate_colors : ℕ → ℕ × ℕ × ℕ
  image_count : ℕ
  cache : Cache
  log : List LogEntry

/-- One iteration of the file loop of `analyze_directory` (lines
110-122): extension filter, info log, extraction, result recording
keyed by the bare file name, optional aggregation.  The second
component is `some e` when the iteration raises `e` (the `int` calls of
the aggregation loop run outside any `try`). -/
def analyze_file (env : Env) (num_colors : ℕ) (display_palette aggregate : Bool)
    (st : DirSt) (root file : String) : DirSt × Option PyExc :=
  if supportedFile file then
    let image_path := pathJoin root file
    let eo := extract_colors env st.cache image_path num_colors display_palette
    let st1 : DirSt := { st with cache := eo.cache, log := st.log ++ LogEntry.info :: eo.log }
    if eo.ret.isEmpty then (st1, none)
    else
      let st2 := { st1 with results := dictInsert st1.results file eo.ret }
      if aggregate then
        match accumPalette st2.aggregate_colors 0 eo.ret with
        | none => (st2, some PyExc.other)
        | some agg =>
          ({ st2 with aggregate_colors := agg, image_count := st2.image_count + 1 }, none)
      else (st2, none)
  else (st, none)

/-- One iteration of the file loop viewed as a fold step: once an
exception has been raised the loop is over, so the state is absorbing
and passes through unchanged. -/
def analyze_step (env : Env) (num_colors : ℕ) (display_palette aggregate : Bool)
    (acc : DirSt × Option PyExc) (rf : String × String) : DirSt × Option PyExc :=
  match acc.2 with
  | some _ => acc
  | none => analyze_file env num_colors display_palette aggregate acc.1 rf.1 rf.2

/-- The file loop of `analyze_directory` over the flattened walk,
stopping (absorbing state) at the first iteration that raises. -/
def analyze_loop (env : Env) (num_colors : ℕ) (display_palette aggregate : Bool)
    (st : DirSt) (fs : List (String × String)) : DirSt × Option PyExc :=
  fs.foldl (analyze_step env num_colors display_palette aggregate) (st, none)

/-- Flattening of the two nested `for` loops over `os.walk(directory)`:
every (root, file) pair in visit order. -/
def walkPairs (env : Env) (directory : String) : List (String × String) :=
  (env.walk directory).flatMap (fun rf => rf.2.map (fun f => (rf.1, f)))

/-- Return value of `analyze_directory`: the filename-keyed mapping, or
the aggregated palette when aggregation applies. -/
inductive AnalyzeRet
  | dict (results : List (String × List String))
  | palette (colors : List String)
deriving DecidableEq, Repr

/-- The expression `aggregate_colors[i] / image_count / 255.0`. -/
def avgColor (t : ℕ × ℕ × ℕ) (image_count : ℕ) : Rgb :=
  ((t.1 : ℚ) / (image_count : ℚ) / 255, (t.2.1 : ℚ) / (image_count : ℚ) / 255,
    (t.2.2 : ℚ) / (image_count : ℚ) / 255)

/-- `analyze_directory(directory, num_colors, display_palette, aggregate)`:
runs the file loop, then either reconverts the averaged accumulator to
hex (when `aggregate` holds and at least one image was counted) or
returns the per-file mapping.  `Except.error` marks an uncaught
exception escaping to the caller. -/
def analyze_directory (env : Env) (cache : Cache) (directory : String)
    (num_colors : ℕ) (display_palette aggregate : Bool) :
    Except PyExc AnalyzeRet × Cache × List LogEntry :=
  let st0 : DirSt := ⟨[], fun _ => (0, 0, 0), 0, cache, []⟩
  match analyze_loop env num_colors display_palette aggregate st0 (walkPairs env directory) with
  | (st, some e) => (Except.error e, st.cache, st.log)
  | (st, none) =>
    if aggregate = true ∧ 0 < st.image_count then
      match mapOpt (fun i => rgb2hex (avgColor (st.aggregate_colors i) st.image_count))
          (List.range num_colors) with
      | none => (Except.error PyExc.other, st.cache, st.log)
      | some aggregated_result =>
        (Except.ok (AnalyzeRet.palette aggregated_result), st.cache, st.log)
    else (Except.ok (AnalyzeRet.dict st.results), st.cache, st.log)

/-- Python `sep.join(parts)`. -/
def strJoin (sep : String) : List String → String
  | [] => ""
  | part :: rest =>
    match rest with
    | [] => part
    | _ :: _ => part ++ sep ++ strJoin sep rest

/-- `format_colors(colors)`: header line plus one `Color N: c` line per
color, `N` being the 1-based index. -/
def format_colors (colors : List String) : String :=
  let formatted := strJoin "\n" (colors.enum.map (fun ic =>
    "Color " ++ toString (ic.1 + 1) ++ ": " ++ ic.2))
  "Dominant colors extracted:\n" ++ formatted

/-- Specification helper: the non-empty color lists that the file loop
of `analyze_directory` records, in visit order, following the cache
exactly as the loop does. -/
def collectPalettes (env : Env) (num_colors : ℕ) (display_palette : Bool) :
    Cache → List (String × String) → List (List String)
  | _, [] => []
  | cache, rf :: rest =>
    if supportedFile rf.2 then
      let eo := extract_colors env cache (pathJoin rf.1 rf.2) num_colors display_palette
      if eo.ret.isEmpty then collectPalettes env num_colors display_palette eo.cache rest
      else eo.ret :: collectPalettes env num_colors display_palette eo.cache rest
    else collectPalettes env num_colors display_palette cache rest

/-- Specification helper: channelwise sum of the decoded colors at
index `i` over a list of palettes (palettes without an index `i` entry
contribute nothing, matching the `enumerate` bound of the loop). -/
def sumAt (ps : List (List String)) (i : ℕ) : ℕ × ℕ × ℕ :=
  ps.foldr (fun p acc => addTriple (((p.get? i).bind decodeColor).getD (0, 0, 0)) acc)
    (0, 0, 0)

/-- Character class of the pattern `[0-9a-f]`. -/
def isHexDigitLower (ch : Char) : Bool :=
  (48 ≤ ch.toNat && ch.toNat ≤ 57) || (97 ≤ ch.toNat && ch.toNat ≤ 102)

/-- Decidable form of matching the regular expression `^#[0-9a-f]{6}$`. -/
def isHexColor (s : String) : Bool :=
  match s.toList with
  | c :: rest => c == '#' && (rest.length == 6 && rest.all isHexDigitLower)
  | [] => false

/-- Specification helper for the report shape: the numbered color lines
with an explicit 1-based counter. -/
def numberedLines : ℕ → List String → List String
  | _, [] => []
  | n, color :: rest => ("Color " ++ toString n ++ ": " ++ color) :: numberedLines (n + 1) rest

/-- Specification helper: whether the clustering oracle, when it
succeeds on this path and cluster count, returns exactly `num_colors`
centers — the shape `KMeans(n_clusters=k).fit(...).cluster_centers_`
always has on success. -/
def clusterSizeOk (env : Env) (image_path : String) (num_colors : ℕ) : Bool :=
  match env.cluster image_path num_colors with
  | none => true
  | some cs => cs.length == num_colors

/-- Test world: one image file `img.png` that clusters to a single red
center for `k = 1` and to two centers for `k = 2`. -/
def envOne : Env :=
  { pathExists := fun _ => true
    cluster := fun p k =>
      if p = "img.png" ∧ k = 1 then some [(1, 0, 0)]
      else if p = "img.png" ∧ k = 2 then some [(0, 0, 0), (1, 1, 1)]
      else none
    renderFails := fun _ => false
    walk := fun _ => [] }

/-- The world of `envOne` after `img.png` is deleted from disk. -/
def envOneGone : Env :=
  { envOne with pathExists := fun _ => false }

/-- The world of `envOne` with a matplotlib display that raises. -/
def envRender : Env :=
  { envOne with renderFails := fun _ => true }

/-- Test world: directory `imgs` holding a solid red and a solid blue image. -/
def envTwoSolid : Env :=
  { pathExists := fun _ => true
    cluster := fun p _ =>
      if p = "imgs/a.png" then some [(1, 0, 0)]
      else if p = "imgs/b.png" then some [(0, 0, 1)]
      else none
    renderFails := fun _ => false
    walk := fun d => if d = "imgs" then [("imgs", ["a.png", "b.png"])] else [] }

/-- Test world: directory `d` holding one image that fails to decode. -/
def envFail : Env :=
  { pathExists := fun _ => true
    cluster := fun _ _ => none
    renderFails := fun _ => false
    walk := fun d => if d = "d" then [("d", ["x.png"])] else [] }

/-- Test world: two subdirectories of `d`, each holding a file named `x.png`. -/
def envDup : Env :=
  { pathExists := fun _ => true
    cluster := fun p _ =>
      if p = "d/s1/x.png" then some [(0, 0, 0)]
      else if p = "d/s2/x.png" then some [(1, 1, 1)]
      else none
    renderFails := fun _ => false
    walk := fun d => if d = "d" then [("d/s1", ["x.png"]), ("d/s2", ["x.png"])] else [] }

/-- Loop state of `analyze_directory envTwoSolid [] "imgs" 1 false true`
after the first file has been processed. -/
def stTwoSolidA : DirSt :=
  ⟨[("a.png", ["#ff0000"])],
   fun j => addTriple (0, 0, 0) (((["#ff0000"].get? j).bind decodeColor).getD (0, 0, 0)),
   1, [("imgs/a.png", ["#ff0000"])], [LogEntry.info]⟩

/-- Loop state of `analyze_directory envTwoSolid [] "imgs" 1 false true`
after both files have been processed. -/
def stTwoSolidAB : DirSt :=
  ⟨[("a.png", ["#ff0000"]), ("b.png", ["#0000ff"])],
   fun j => addTriple
     (addTriple (0, 0, 0) (((["#ff0000"].get? j).bind decodeColor).getD (0, 0, 0)))
     (((["#0000ff"].get? j).bind decodeColor).getD (0, 0, 0)),
   2, [("imgs/a.png", ["#ff0000"]), ("imgs/b.png", ["#0000ff"])],
   [LogEntry.info, LogEntry.info]⟩

/-! Basic lemmas about the helper operations. -/

lemma dictGet_dictInsert {β : Type} (d : List (String × β)) (k p : String) (v : β) :
    dictGet (dictInsert d k v) p = if k = p then some v else dictGet d p := by
  induction d with
  | nil => simp [dictInsert, dictGet]
  | cons hd tl ih =>
    obtain ⟨k1, v1⟩ := hd
    by_cases h1 : k1 = k
    · subst h1
      by_cases h2 : k1 = p <;> simp [dictInsert, dictGet, h2]
    · simp only [dictInsert, if_neg h1, dictGet, ih]
      by_cases h2 : k = p
      · subst h2
        simp [if_neg h1]
      · simp [h2]

lemma dictGet_dictInsert_self {β : Type} (d : List (String × β)) (k : String) (v : β) :
    dictGet (dictInsert d k v) k = some v := by
  simp [dictGet_dictInsert]

lemma length_dictInsert {β : Type} (d : List (String × β)) (k : String) (v : β) :
    (dictInsert d k v).length ≤ d.length + 1 := by
  induction d with
  | nil => simp [dictInsert]
  | cons hd tl ih =>
    obtain ⟨k1, v1⟩ := hd
    by_cases h1 : k1 = k
    · simp only [dictInsert, if_pos h1, List.length_cons]
      omega
    · simp only [dictInsert, if_neg h1, List.length_cons]
      omega

lemma keys_dictInsert {β : Type} (d : List (String × β)) (k : String) (v : β) :
    ∀ key ∈ (dictInsert d k v).map Prod.fst, key = k ∨ key ∈ d.map Prod.fst := by
  induction d with
  | nil => simp [dictInsert]
  | cons hd tl ih =>
    obtain ⟨k1, v1⟩ := hd
    by_cases h1 : k1 = k
    · subst h1
      intro key hkey
      simp only [dictInsert, if_pos rfl, List.map_cons, List.mem_cons] at hkey
      right
      simpa using hkey
    · intro key hkey
      simp [dictInsert, h1] at hkey
      rcases hkey with h | h
      · right; simp [h]
      · rcases ih key (by simpa using h) with h2 | h2
        · left; exact h2
        · right; simp [h2]

lemma mapOpt_length {α β : Type} (f : α → Option β) :
    ∀ (l : List α) (ys : List β), mapOpt f l = some ys → ys.length = l.length := by
  intro l
  induction l with
  | nil =>
    intro ys h
    simp only [mapOpt, Option.some.injEq] at h
    subst h
    rfl
  | cons a rest ih =>
    intro ys h
    simp only [mapOpt] at h
    rcases ha : f a with _ | b <;> rw [ha] at h
    · simp at h
    · rcases hr : mapOpt f rest with _ | bs <;> rw [hr] at h
      · simp at h
      · simp only [Option.some.injEq] at h
        subst h
        simp [ih bs hr]

lemma mapOpt_mem {α β : Type} (f : α → Option β) :
    ∀ (l : List α) (ys : List β), mapOpt f l = some ys →
      ∀ y ∈ ys, ∃ x ∈ l, f x = some y := by
  intro l
  induction l with
  | nil =>
    intro ys h
    simp only [mapOpt, Option.some.injEq] at h
    subst h
    simp
  | cons a rest ih =>
    intro ys h
    simp only [mapOpt] at h
    rcases ha : f a with _ | b <;> rw [ha] at h
    · simp at h
    · rcases hr : mapOpt f rest with _ | bs <;> rw [hr] at h
      · simp at h
      · simp only [Option.some.injEq] at h
        subst h
        intro y hy
        rcases List.mem_cons.mp hy with hy | hy
        · exact ⟨a, by simp, by rw [ha, hy]⟩
        · obtain ⟨x, hx, hfx⟩ := ih bs hr y hy
          exact ⟨x, by simp [hx], hfx⟩

lemma mapOpt_eq_map {α β : Type} (f : α → Option β) (g : α → β) :
    ∀ l : List α, (∀ a ∈ l, f a = some (g a)) → mapOpt f l = some (l.map g) := by
  intro l
  induction l with
  | nil => intro _; simp [mapOpt]
  | cons a rest ih =>
    intro h
    have ha : f a = some (g a) := h a (by simp)
    have hr : mapOpt f rest = some (rest.map g) := ih (fun x hx => h x (by simp [hx]))
    simp [mapOpt, ha, hr]

lemma strJoin_cons (sep p : String) (rest : List String) (h : rest ≠ []) :
    strJoin sep (p :: rest) = p ++ sep ++ strJoin sep rest := by
  cases rest with
  | nil => exact absurd rfl h
  | cons b tl => rfl

lemma addTriple_zero_right (a : ℕ × ℕ × ℕ) : addTriple a (0, 0, 0) = a := by
  obtain ⟨a1, a2, a3⟩ := a
  simp [addTriple]

lemma addTriple_zero (a : ℕ × ℕ × ℕ) : addTriple a 0 = a := by
  obtain ⟨a1, a2, a3⟩ := a
  rfl

lemma addTriple_zero_left (b : ℕ × ℕ × ℕ) : addTriple (0, 0, 0) b = b := by
  obtain ⟨b1, b2, b3⟩ := b
  simp [addTriple]

lemma addTriple_assoc (a b c : ℕ × ℕ × ℕ) :
    addTriple (addTriple a b) c = addTriple a (addTriple b c) := by
  simp [addTriple, Nat.add_assoc]

lemma roundHalfEven_nonneg {q : ℚ} (h : 0 ≤ q) : 0 ≤ roundHalfEven q := by
  unfold roundHalfEven
  have hf : (0 : ℤ) ≤ ⌊q⌋ := Int.floor_nonneg.mpr h
  split_ifs
  · exact hf
  · omega
  · rw [round_eq]
    apply Int.floor_nonneg.mpr
    linarith

lemma roundHalfEven_le {q : ℚ} (h : q ≤ 255) : roundHalfEven q ≤ 255 := by
  unfold roundHalfEven
  split_ifs with h1 h2
  · have := Int.floor_le_floor (α := ℚ) h
    simpa using this
  · have hq : (⌊q⌋ : ℚ) = q - 1/2 := by linarith
    have hlt : (⌊q⌋ : ℚ) < 255 := by rw [hq]; linarith
    have : ⌊q⌋ < 255 := by exact_mod_cast hlt
    omega
  · rw [round_eq]
    have hle : q + 1/2 ≤ (511 : ℚ)/2 := by linarith
    have h2 := Int.floor_le_floor hle
    have h3 : ⌊(511 : ℚ)/2⌋ = 255 := by
      apply Int.floor_eq_iff.mpr
      constructor <;> norm_num
    omega

lemma isHexDigitLower_hexDigitChar : ∀ n, n < 16 → isHexDigitLower (hexDigitChar n) = true := by
  decide

lemma hexByte_all_lower {n : ℕ} (h : n ≤ 255) :
    ∀ ch ∈ hexByte n, isHexDigitLower ch = true := by
  intro ch hch
  have h1 : n / 16 < 16 := by omega
  have h2 : n % 16 < 16 := Nat.mod_lt _ (by norm_num)
  simp only [hexByte, List.mem_cons, List.not_mem_nil, or_false] at hch
  rcases hch with hch | hch <;> subst hch
  · exact isHexDigitLower_hexDigitChar _ h1
  · exact isHexDigitLower_hexDigitChar _ h2

lemma isHexColor_mk {l : List Char} (hlen : l.length = 6)
    (hall : ∀ ch ∈ l, isHexDigitLower ch = true) :
    isHexColor (String.mk ('#' :: l)) = true := by
  show ('#' == '#' && ((l.length == 6) && l.all isHexDigitLower)) = true
  have h6 : (l.length == 6) = true := by simp [hlen]
  have ha : l.all isHexDigitLower = true := List.all_eq_true.mpr hall
  simp [h6, ha]

lemma isHexColor_rgb2hex {c : Rgb} {s : String} (h : rgb2hex c = some s) :
    isHexColor s = true := by
  unfold rgb2hex at h
  split_ifs at h with hr
  · obtain ⟨h1, h2, h3, h4, h5, h6⟩ := hr
    have b1 : (roundHalfEven (c.1 * 255)).toNat ≤ 255 := by
      have := roundHalfEven_le (q := c.1 * 255) (by linarith)
      omega
    have b2 : (roundHalfEven (c.2.1 * 255)).toNat ≤ 255 := by
      have := roundHalfEven_le (q := c.2.1 * 255) (by linarith)
      omega
    have b3 : (roundHalfEven (c.2.2 * 255)).toNat ≤ 255 := by
      have := roundHalfEven_le (q := c.2.2 * 255) (by linarith)
      omega
    have hs := (Option.some.inj h).symm
    subst hs
    apply isHexColor_mk
    · simp [hexByte]
    · intro ch hch
      rcases List.mem_append.mp hch with hch | hch
      · exact hexByte_all_lower b1 ch hch
      · rcases List.mem_append.mp hch with hch | hch
        · exact hexByte_all_lower b2 ch hch
        · exact hexByte_all_lower b3 ch hch

lemma hexDigitVal_of_lower {ch : Char} (h : isHexDigitLower ch = true) :
    ∃ d, hexDigitVal ch = some d ∧ d ≤ 15 := by
  simp only [isHexDigitLower, Bool.or_eq_true, Bool.and_eq_true, decide_eq_true_eq] at h
  unfold hexDigitVal
  rcases h with ⟨ha, hb⟩ | ⟨ha, hb⟩
  · rw [if_pos ⟨ha, hb⟩]
    exact ⟨_, rfl, by omega⟩
  · rw [if_neg (by omega), if_pos ⟨ha, hb⟩]
    exact ⟨_, rfl, by omega⟩

lemma int16_pair {a b : Char} {da db : ℕ} (ha : hexDigitVal a = some da)
    (hb : hexDigitVal b = some db) : int16 [a, b] = some (16 * da + db) := by
  simp [int16, ha, hb]

lemma length_eq_six {α : Type} {l : List α} (h : l.length = 6) :
    ∃ a b c d e f, l = [a, b, c, d, e, f] := by
  rcases l with _ | ⟨a, _ | ⟨b, _ | ⟨c, _ | ⟨d, _ | ⟨e, _ | ⟨f, _ | ⟨g, t⟩⟩⟩⟩⟩⟩⟩ <;>
    simp only [List.length] at h <;> try omega
  exact ⟨a, b, c, d, e, f, rfl⟩

lemma decodeColor_of_isHexColor {s : String} (h : isHexColor s = true) :
    ∃ t : ℕ × ℕ × ℕ, decodeColor s = some t ∧
      t.1 ≤ 255 ∧ t.2.1 ≤ 255 ∧ t.2.2 ≤ 255 := by
  unfold isHexColor at h
  rcases hsl : s.toList with _ | ⟨c, rest⟩ <;> rw [hsl] at h
  · simp at h
  · simp only [Bool.and_eq_true, beq_iff_eq, List.all_eq_true] at h
    obtain ⟨hc, hlen, hall⟩ := h
    obtain ⟨d1, d2, d3, d4, d5, d6, hrest⟩ := length_eq_six hlen
    subst hrest
    subst hc
    obtain ⟨v1, hv1, hb1⟩ := hexDigitVal_of_lower (hall d1 (by simp))
    obtain ⟨v2, hv2, hb2⟩ := hexDigitVal_of_lower (hall d2 (by simp))
    obtain ⟨v3, hv3, hb3⟩ := hexDigitVal_of_lower (hall d3 (by simp))
    obtain ⟨v4, hv4, hb4⟩ := hexDigitVal_of_lower (hall d4 (by simp))
    obtain ⟨v5, hv5, hb5⟩ := hexDigitVal_of_lower (hall d5 (by simp))
    obtain ⟨v6, hv6, hb6⟩ := hexDigitVal_of_lower (hall d6 (by simp))
    refine ⟨(16 * v1 + v2, 16 * v3 + v4, 16 * v5 + v6), ?_, ?_, ?_, ?_⟩
    · unfold decodeColor
      rw [hsl]
      show (match int16 [d1, d2], int16 [d3, d4], int16 [d5, d6] with
        | some r, some g, some b => some (r, g, b)
        | _, _, _ => none) = some (16 * v1 + v2, 16 * v3 + v4, 16 * v5 + v6)
      rw [int16_pair hv1 hv2, int16_pair hv3 hv4, int16_pair hv5 hv6]
    · show 16 * v1 + v2 ≤ 255
      omega
    · show 16 * v3 + v4 ≤ 255
      omega
    · show 16 * v5 + v6 ≤ 255
      omega

lemma decodeColor_isSome_of_isHexColor {s : String} (h : isHexColor s = true) :
    (decodeColor s).isSome = true := by
  obtain ⟨t, ht, _⟩ := decodeColor_of_isHexColor h
  simp [ht]

/-! Shape lemmas for `extract_colors`. -/

lemma extract_colors_missing {env : Env} {cache : Cache} {p : String} {k : ℕ} {s : Bool}
    (h : env.pathExists p = false) :
    extract_colors env cache p k s = ⟨[], cache, [LogEntry.error]⟩ := by
  simp [extract_colors, extract_colors_try, h]

lemma extract_colors_cached {env : Env} {cache : Cache} {p : String} {k : ℕ} {s : Bool}
    {v : List String} (hex : env.pathExists p = true) (hc : dictGet cache p = some v) :
    extract_colors env cache p k s = ⟨v, cache, [LogEntry.info]⟩ := by
  simp [extract_colors, extract_colors_try, hex, hc]

lemma extract_colors_render_fail {env : Env} {cache : Cache} {p : String} {k : ℕ}
    {cs : List Rgb} {hs : List String}
    (hex : env.pathExists p = true) (hnc : dictGet cache p = none)
    (hcl : env.cluster p k = some cs) (hhex : mapOpt rgb2hex cs = some hs)
    (hrf : env.renderFails hs = true) :
    extract_colors env cache p k true = ⟨[], dictInsert cache p hs, [LogEntry.error]⟩ := by
  simp [extract_colors, extract_colors_try, hex, hnc, hcl, hhex, hrf]

lemma extract_colors_try_render_fail {env : Env} {cache : Cache} {p : String} {k : ℕ}
    {cs : List Rgb} {hs : List String}
    (hex : env.pathExists p = true) (hnc : dictGet cache p = none)
    (hcl : env.cluster p k = some cs) (hhex : mapOpt rgb2hex cs = some hs)
    (hrf : env.renderFails hs = true) :
    extract_colors_try env cache p k true
      = (Except.error PyExc.other, dictInsert cache p hs, []) := by
  simp [extract_colors_try, hex, hnc, hcl, hhex, hrf]

lemma extract_colors_fresh_success {env : Env} {cache : Cache} {p : String} {k : ℕ}
    {s : Bool} {cs : List Rgb} {hs : List String}
    (hex : env.pathExists p = true) (hnc : dictGet cache p = none)
    (hcl : env.cluster p k = some cs) (hhex : mapOpt rgb2hex cs = some hs)
    (hrf : (s && env.renderFails hs) = false) :
    extract_colors env cache p k s = ⟨hs, dictInsert cache p hs, []⟩ := by
  simp [extract_colors, extract_colors_try, hex, hnc, hcl, hhex, hrf]

lemma extract_colors_cases (env : Env) (cache : Cache) (p : String) (k : ℕ) (s : Bool) :
    (extract_colors env cache p k s).ret = [] ∨
    (dictGet cache p = some (extract_colors env cache p k s).ret ∧
      (extract_colors env cache p k s).cache = cache) ∨
    (∃ cs, env.cluster p k = some cs ∧
      mapOpt rgb2hex cs = some (extract_colors env cache p k s).ret ∧
      dictGet cache p = none ∧
      (extract_colors env cache p k s).cache
        = dictInsert cache p (extract_colors env cache p k s).ret) := by
  cases hpe : env.pathExists p with
  | false => left; simp [extract_colors_missing hpe]
  | true =>
    cases hdc : dictGet cache p with
    | some v => right; left; simp [extract_colors_cached hpe hdc, hdc]
    | none =>
      cases hcl : env.cluster p k with
      | none => left; simp [extract_colors, extract_colors_try, hpe, hdc, hcl]
      | some cs =>
        cases hhx : mapOpt rgb2hex cs with
        | none => left; simp [extract_colors, extract_colors_try, hpe, hdc, hcl, hhx]
        | some hs =>
          cases hrf : s && env.renderFails hs with
          | true => left; simp [extract_colors, extract_colors_try, hpe, hdc, hcl, hhx, hrf]
          | false =>
            right; right
            refine ⟨cs, rfl, ?_, rfl, ?_⟩ <;>
              simp [extract_colors_fresh_success hpe hdc hcl hhx hrf, hhx]

lemma extract_colors_ret_locked {env : Env} {cache : Cache} {p : String} {k : ℕ} {s : Bool}
    (h : (extract_colors env cache p k s).ret ≠ []) :
    dictGet (extract_colors env cache p k s).cache p
      = some (extract_colors env cache p k s).ret := by
  rcases extract_colors_cases env cache p k s with h1 | ⟨h1, h2⟩ | ⟨cs, _, _, _, h4⟩
  · exact absurd h1 h
  · rw [h2, h1]
  · rw [h4, dictGet_dictInsert_self]

lemma extract_colors_fresh_ret {env : Env} {cache : Cache} {p : String} {k : ℕ} {s : Bool}
    (hnc : dictGet cache p = none) :
    (extract_colors env cache p k s).ret = [] ∨
    ∃ cs, env.cluster p k = some cs ∧
      mapOpt rgb2hex cs = some (extract_colors env cache p k s).ret := by
  rcases extract_colors_cases env cache p k s with h1 | ⟨h1, _⟩ | ⟨cs, h1, h2, _, _⟩
  · left; exact h1
  · rw [hnc] at h1; exact absurd h1 (by simp)
  · right; exact ⟨cs, h1, h2⟩

/-! Bounds needed for the aggregated hex conversions. -/

lemma avg_le_one {m n : ℕ} (hn : 0 < n) (hm : m ≤ 255 * n) :
    (m : ℚ) / (n : ℚ) / 255 ≤ 1 := by
  have hnq : (0 : ℚ) < (n : ℚ) := by exact_mod_cast hn
  rw [div_div, div_le_one (by positivity)]
  have hmq : (m : ℚ) ≤ 255 * (n : ℚ) := by exact_mod_cast hm
  linarith

lemma avg_nonneg (m n : ℕ) : 0 ≤ (m : ℚ) / (n : ℚ) / 255 := by positivity

lemma rgb2hex_avgColor_isSome {t : ℕ × ℕ × ℕ} {n : ℕ} (hn : 0 < n)
    (h1 : t.1 ≤ 255 * n) (h2 : t.2.1 ≤ 255 * n) (h3 : t.2.2 ≤ 255 * n) :
    (rgb2hex (avgColor t n)).isSome = true := by
  unfold rgb2hex avgColor
  rw [if_pos]
  · rfl
  · exact ⟨avg_nonneg _ _, avg_le_one hn h1, avg_nonneg _ _, avg_le_one hn h2,
      avg_nonneg _ _, avg_le_one hn h3⟩

lemma sumAt_nil (i : ℕ) : sumAt [] i = (0, 0, 0) := rfl

lemma sumAt_cons (p : List String) (ps : List (List String)) (i : ℕ) :
    sumAt (p :: ps) i
      = addTriple (((p.get? i).bind decodeColor).getD (0, 0, 0)) (sumAt ps i) := rfl

lemma sumAt_le {ps : List (List String)}
    (h : ∀ p ∈ ps, ∀ c ∈ p, isHexColor c = true) (i : ℕ) :
    (sumAt ps i).1 ≤ 255 * ps.length ∧ (sumAt ps i).2.1 ≤ 255 * ps.length ∧
      (sumAt ps i).2.2 ≤ 255 * ps.length := by
  induction ps with
  | nil => simp [sumAt_nil]
  | cons p ps ih =>
    have hp : ∀ c ∈ p, isHexColor c = true := h p (by simp)
    have hps := ih (fun q hq => h q (by simp [hq]))
    have hhead : (((p.get? i).bind decodeColor).getD (0, 0, 0)).1 ≤ 255 ∧
        (((p.get? i).bind decodeColor).getD (0, 0, 0)).2.1 ≤ 255 ∧
        (((p.get? i).bind decodeColor).getD (0, 0, 0)).2.2 ≤ 255 := by
      cases hg : p.get? i with
      | none => simp
      | some c =>
        have hc : isHexColor c = true := hp c (List.get?_mem hg)
        obtain ⟨t, ht, b1, b2, b3⟩ := decodeColor_of_isHexColor hc
        simp [ht]
        exact ⟨b1, b2, b3⟩
    rw [sumAt_cons]
    unfold addTriple
    obtain ⟨e1, e2, e3⟩ := hhead
    obtain ⟨f1, f2, f3⟩ := hps
    refine ⟨?_, ?_, ?_⟩ <;> dsimp only <;> simp only [List.length_cons] <;> omega

/-! Characterization of the aggregation accumulator. -/

lemma accumPalette_spec (colorsList : List String) :
    ∀ (agg : ℕ → ℕ × ℕ × ℕ) (i : ℕ),
      (∀ c ∈ colorsList, (decodeColor c).isSome = true) →
      accumPalette agg i colorsList = some (fun j =>
        if i ≤ j then
          addTriple (agg j) (((colorsList.get? (j - i)).bind decodeColor).getD (0, 0, 0))
        else agg j) := by
  induction colorsList with
  | nil =>
    intro agg i _
    simp only [accumPalette, Option.some.injEq]
    funext j
    by_cases hij : i ≤ j <;> simp [hij, addTriple_zero_right, addTriple_zero]
  | cons c rest ih =>
    intro agg i hdec
    have hc : (decodeColor c).isSome = true := hdec c (by simp)
    obtain ⟨d, hd⟩ := Option.isSome_iff_exists.mp hc
    simp only [accumPalette, hd]
    rw [ih _ (i + 1) (fun x hx => hdec x (by simp [hx]))]
    simp only [Option.some.injEq]
    funext j
    by_cases h1 : i + 1 ≤ j
    · rw [if_pos h1, if_pos (show i ≤ j by omega),
        Function.update_noteq (show j ≠ i by omega)]
      have hji : j - i = (j - (i + 1)) + 1 := by omega
      rw [hji, List.get?_cons_succ]
    · by_cases h2 : i ≤ j
      · have hji : j = i := by omega
        subst hji
        rw [if_neg h1, if_pos le_rfl, Function.update_same]
        simp [hd]
      · rw [if_neg h1, if_neg h2, Function.update_noteq (show j ≠ i by omega)]

lemma accumPalette_zero {colorsList : List String} {agg : ℕ → ℕ × ℕ × ℕ}
    (hdec : ∀ c ∈ colorsList, (decodeColor c).isSome = true) :
    accumPalette agg 0 colorsList = some (fun j =>
      addTriple (agg j) (((colorsList.get? j).bind decodeColor).getD (0, 0, 0))) := by
  rw [accumPalette_spec colorsList agg 0 hdec]
  simp only [Option.some.injEq]
  funext j
  simp

/-! Invariants of the file loop of `analyze_directory`. -/

lemma analyze_loop_nil (env : Env) (k : ℕ) (d a : Bool) (st : DirSt) :
    analyze_loop env k d a st [] = (st, none) := rfl

lemma analyze_loop_absorb (env : Env) (k : ℕ) (d a : Bool) :
    ∀ (fs : List (String × String)) (st : DirSt) (e : PyExc),
      fs.foldl (analyze_step env k d a) (st, some e) = (st, some e) := by
  intro fs
  induction fs with
  | nil => intro st e; rfl
  | cons rf rest ih =>
    intro st e
    rw [List.foldl_cons]
    show List.foldl _ (analyze_step env k d a (st, some e) rf) rest = _
    rw [show analyze_step env k d a (st, some e) rf = (st, some e) from rfl]
    exact ih st e

lemma analyze_loop_cons_none {env : Env} {k : ℕ} {d a : Bool} {st st1 : DirSt}
    {rf : String × String} (rest : List (String × String))
    (h : analyze_file env k d a st rf.1 rf.2 = (st1, none)) :
    analyze_loop env k d a st (rf :: rest) = analyze_loop env k d a st1 rest := by
  unfold analyze_loop
  rw [List.foldl_cons]
  rw [show analyze_step env k d a (st, none) rf = (st1, none) from by
    unfold analyze_step; exact h]

lemma analyze_loop_cons_some {env : Env} {k : ℕ} {d a : Bool} {st st1 : DirSt}
    {rf : String × String} {e : PyExc} (rest : List (String × String))
    (h : analyze_file env k d a st rf.1 rf.2 = (st1, some e)) :
    analyze_loop env k d a st (rf :: rest) = (st1, some e) := by
  unfold analyze_loop
  rw [List.foldl_cons]
  rw [show analyze_step env k d a (st, none) rf = (st1, some e) from by
    unfold analyze_step; exact h]
  exact analyze_loop_absorb env k d a rest st1 e

lemma analyze_loop_agg (env : Env) (k : ℕ) (s : Bool) :
    ∀ (fs : List (String × String)) (st : DirSt),
      (∀ p ∈ collectPalettes env k s st.cache fs, ∀ c ∈ p, (decodeColor c).isSome = true) →
      (analyze_loop env k s true st fs).2 = none ∧
      (analyze_loop env k s true st fs).1.image_count
        = st.image_count + (collectPalettes env k s st.cache fs).length ∧
      (analyze_loop env k s true st fs).1.aggregate_colors
        = fun j => addTriple (st.aggregate_colors j)
            (sumAt (collectPalettes env k s st.cache fs) j) := by
  intro fs
  induction fs with
  | nil =>
    intro st _
    rw [analyze_loop_nil]
    refine ⟨rfl, by simp [collectPalettes], ?_⟩
    funext j
    simp [collectPalettes, sumAt_nil, addTriple_zero_right, addTriple_zero]
  | cons rf rest ih =>
    intro st hdec
    by_cases hsup : supportedFile rf.2
    · by_cases hre : (extract_colors env st.cache (pathJoin rf.1 rf.2) k s).ret = []
      · have hstep : analyze_file env k s true st rf.1 rf.2
            = (⟨st.results, st.aggregate_colors, st.image_count,
                (extract_colors env st.cache (pathJoin rf.1 rf.2) k s).cache,
                st.log ++ LogEntry.info ::
                  (extract_colors env st.cache (pathJoin rf.1 rf.2) k s).log⟩, none) := by
          simp [analyze_file, hsup, hre]
        have hcol : collectPalettes env k s st.cache (rf :: rest)
            = collectPalettes env k s
                (extract_colors env st.cache (pathJoin rf.1 rf.2) k s).cache rest := by
          simp [collectPalettes, hsup, hre]
        rw [hcol] at hdec
        have ihs := ih (⟨st.results, st.aggregate_colors, st.image_count,
          (extract_colors env st.cache (pathJoin rf.1 rf.2) k s).cache,
          st.log ++ LogEntry.info ::
            (extract_colors env st.cache (pathJoin rf.1 rf.2) k s).log⟩) hdec
        rw [analyze_loop_cons_none rest hstep]
        rw [hcol]
        exact ihs
      · have hdecH := hdec
        rw [show collectPalettes env k s st.cache (rf :: rest)
            = (extract_colors env st.cache (pathJoin rf.1 rf.2) k s).ret ::
              collectPalettes env k s
                (extract_colors env st.cache (pathJoin rf.1 rf.2) k s).cache rest
          from by simp [collectPalettes, hsup, hre]] at hdec ⊢
        have hdecHead : ∀ c ∈ (extract_colors env st.cache (pathJoin rf.1 rf.2) k s).ret,
            (decodeColor c).isSome = true := hdec _ (by simp)
        have hdecRest : ∀ p ∈ collectPalettes env k s
            (extract_colors env st.cache (pathJoin rf.1 rf.2) k s).cache rest,
            ∀ c ∈ p, (decodeColor c).isSome = true := fun p hp => hdec p (by simp [hp])
        have hacc := @accumPalette_zero
          (extract_colors env st.cache (pathJoin rf.1 rf.2) k s).ret
          st.aggregate_colors hdecHead
        have hstep : analyze_file env k s true st rf.1 rf.2
            = (⟨dictInsert st.results rf.2
                  (extract_colors env st.cache (pathJoin rf.1 rf.2) k s).ret,
                fun j => addTriple (st.aggregate_colors j)
                  ((((extract_colors env st.cache (pathJoin rf.1 rf.2) k s).ret.get? j).bind
                    decodeColor).getD (0, 0, 0)),
                st.image_count + 1,
                (extract_colors env st.cache (pathJoin rf.1 rf.2) k s).cache,
                st.log ++ LogEntry.info ::
                  (extract_colors env st.cache (pathJoin rf.1 rf.2) k s).log⟩, none) := by
          simp [analyze_file, hsup, hre, hacc]
        have ihs := ih (⟨dictInsert st.results rf.2
                  (extract_colors env st.cache (pathJoin rf.1 rf.2) k s).ret,
                fun j => addTriple (st.aggregate_colors j)
                  ((((extract_colors env st.cache (pathJoin rf.1 rf.2) k s).ret.get? j).bind
                    decodeColor).getD (0, 0, 0)),
                st.image_count + 1,
                (extract_colors env st.cache (pathJoin rf.1 rf.2) k s).cache,
                st.log ++ LogEntry.info ::
                  (extract_colors env st.cache (pathJoin rf.1 rf.2) k s).log⟩) hdecRest
        rw [analyze_loop_cons_none rest hstep]
        obtain ⟨i1, i2, i3⟩ := ihs
        refine ⟨i1, ?_, ?_⟩
        · rw [i2]
          simp only [List.length_cons]
          omega
        · rw [i3]
          funext j
          simp only [sumAt_cons]
          rw [addTriple_assoc]
    · have hstep : analyze_file env k s true st rf.1 rf.2 = (st, none) := by
        simp [analyze_file, hsup]
      have hcol : collectPalettes env k s st.cache (rf :: rest)
          = collectPalettes env k s st.cache rest := by
        simp [collectPalettes, hsup]
      rw [hcol] at hdec
      have ihs := ih st hdec
      rw [analyze_loop_cons_none rest hstep]
      rw [hcol]
      exact ihs

lemma analyze_loop_no_success (env : Env) (k : ℕ) (s aggFlag : Bool) :
    ∀ (fs : List (String × String)) (st : DirSt),
      collectPalettes env k s st.cache fs = [] →
      (analyze_loop env k s aggFlag st fs).2 = none ∧
      (analyze_loop env k s aggFlag st fs).1.results = st.results ∧
      (analyze_loop env k s aggFlag st fs).1.image_count = st.image_count := by
  intro fs
  induction fs with
  | nil =>
    intro st _
    rw [analyze_loop_nil]
    exact ⟨rfl, rfl, rfl⟩
  | cons rf rest ih =>
    intro st hcol
    by_cases hsup : supportedFile rf.2
    · by_cases hre : (extract_colors env st.cache (pathJoin rf.1 rf.2) k s).ret = []
      · have hstep : analyze_file env k s aggFlag st rf.1 rf.2
            = (⟨st.results, st.aggregate_colors, st.image_count,
                (extract_colors env st.cache (pathJoin rf.1 rf.2) k s).cache,
                st.log ++ LogEntry.info ::
                  (extract_colors env st.cache (pathJoin rf.1 rf.2) k s).log⟩, none) := by
          simp [analyze_file, hsup, hre]
        have hcol2 : collectPalettes env k s
            (extract_colors env st.cache (pathJoin rf.1 rf.2) k s).cache rest = [] := by
          simpa [collectPalettes, hsup, hre] using hcol
        rw [analyze_loop_cons_none rest hstep]
        exact ih (⟨st.results, st.aggregate_colors, st.image_count,
          (extract_colors env st.cache (pathJoin rf.1 rf.2) k s).cache,
          st.log ++ LogEntry.info ::
            (extract_colors env st.cache (pathJoin rf.1 rf.2) k s).log⟩) hcol2
      · exfalso
        simp [collectPalettes, hsup, hre] at hcol
    · have hstep : analyze_file env k s aggFlag st rf.1 rf.2 = (st, none) := by
        simp [analyze_file, hsup]
      have hcol2 : collectPalettes env k s st.cache rest = [] := by
        simpa [collectPalettes, hsup] using hcol
      rw [analyze_loop_cons_none rest hstep]
      exact ih st hcol2

lemma analyze_loop_no_agg (env : Env) (k : ℕ) (s : Bool) :
    ∀ (fs : List (String × String)) (st : DirSt),
      (analyze_loop env k s false st fs).2 = none ∧
      (analyze_loop env k s false st fs).1.results.length
        ≤ st.results.length + fs.countP (fun rf => supportedFile rf.2) ∧
      ∀ key ∈ ((analyze_loop env k s false st fs).1.results.map Prod.fst),
        key ∈ st.results.map Prod.fst ∨ supportedFile key = true := by
  intro fs
  induction fs with
  | nil =>
    intro st
    rw [analyze_loop_nil]
    exact ⟨rfl, by simp, fun key hk => Or.inl hk⟩
  | cons rf rest ih =>
    intro st
    have hcount : (rf :: rest).countP (fun rf => supportedFile rf.2)
        = rest.countP (fun rf => supportedFile rf.2)
          + (if supportedFile rf.2 then 1 else 0) := by
      simp [List.countP_cons]
    by_cases hsup : supportedFile rf.2
    · by_cases hre : (extract_colors env st.cache (pathJoin rf.1 rf.2) k s).ret = []
      · have hstep : analyze_file env k s false st rf.1 rf.2
            = (⟨st.results, st.aggregate_colors, st.image_count,
                (extract_colors env st.cache (pathJoin rf.1 rf.2) k s).cache,
                st.log ++ LogEntry.info ::
                  (extract_colors env st.cache (pathJoin rf.1 rf.2) k s).log⟩, none) := by
          simp [analyze_file, hsup, hre]
        rw [analyze_loop_cons_none rest hstep]
        obtain ⟨i1, i2, i3⟩ := ih (⟨st.results, st.aggregate_colors, st.image_count,
          (extract_colors env st.cache (pathJoin rf.1 rf.2) k s).cache,
          st.log ++ LogEntry.info ::
            (extract_colors env st.cache (pathJoin rf.1 rf.2) k s).log⟩)
        refine ⟨i1, ?_, i3⟩
        dsimp only at i2
        rw [hcount, if_pos hsup]
        omega
      · have hstep : analyze_file env k s false st rf.1 rf.2
            = (⟨dictInsert st.results rf.2
                  (extract_colors env st.cache (pathJoin rf.1 rf.2) k s).ret,
                st.aggregate_colors, st.image_count,
                (extract_colors env st.cache (pathJoin rf.1 rf.2) k s).cache,
                st.log ++ LogEntry.info ::
                  (extract_colors env st.cache (pathJoin rf.1 rf.2) k s).log⟩, none) := by
          simp [analyze_file, hsup, hre]
        rw [analyze_loop_cons_none rest hstep]
        obtain ⟨i1, i2, i3⟩ := ih (⟨dictInsert st.results rf.2
            (extract_colors env st.cache (pathJoin rf.1 rf.2) k s).ret,
          st.aggregate_colors, st.image_count,
          (extract_colors env st.cache (pathJoin rf.1 rf.2) k s).cache,
          st.log ++ LogEntry.info ::
            (extract_colors env st.cache (pathJoin rf.1 rf.2) k s).log⟩)
        refine ⟨i1, ?_, ?_⟩
        · dsimp only at i2
          rw [hcount, if_pos hsup]
          have hlen := length_dictInsert st.results rf.2
            (extract_colors env st.cache (pathJoin rf.1 rf.2) k s).ret
          omega
        · intro key hk
          rcases i3 key hk with hk2 | hk2
          · rcases keys_dictInsert st.results rf.2
              (extract_colors env st.cache (pathJoin rf.1 rf.2) k s).ret key hk2 with
              hk3 | hk3
            · right; rw [hk3]; exact hsup
            · left; exact hk3
          · right; exact hk2
    · have hstep : analyze_file env k s false st rf.1 rf.2 = (st, none) := by
        simp [analyze_file, hsup]
      rw [analyze_loop_cons_none rest hstep]
      obtain ⟨i1, i2, i3⟩ := ih st
      refine ⟨i1, ?_, i3⟩
      rw [hcount, if_neg hsup]
      omega

lemma analyze_loop_filter (env : Env) (k : ℕ) (s a : Bool) :
    ∀ (fs : List (String × String)) (st : DirSt),
      analyze_loop env k s a st (fs.filter (fun rf => supportedFile rf.2))
        = analyze_loop env k s a st fs := by
  intro fs
  induction fs with
  | nil => intro st; rfl
  | cons rf rest ih =>
    intro st
    by_cases hsup : supportedFile rf.2
    · rw [List.filter_cons_of_pos (by simpa using hsup)]
      rcases haf : analyze_file env k s a st rf.1 rf.2 with ⟨st1, e⟩
      cases e with
      | none =>
        rw [analyze_loop_cons_none _ haf, analyze_loop_cons_none rest haf]
        exact ih st1
      | some ex =>
        rw [analyze_loop_cons_some _ haf, analyze_loop_cons_some rest haf]
    · rw [List.filter_cons_of_neg (by simpa using hsup)]
      have hstep : analyze_file env k s a st rf.1 rf.2 = (st, none) := by
        simp [analyze_file, hsup]
      rw [analyze_loop_cons_none rest hstep]
      exact ih st

lemma map_pair_filter (r : String) (files : List String) :
    (files.filter supportedFile).map (fun f => (r, f))
      = (files.map (fun f => (r, f))).filter (fun rf => supportedFile rf.2) := by
  induction files with
  | nil => rfl
  | cons f fs ih =>
    by_cases h : supportedFile f <;> simp [List.filter_cons, h, ih]

lemma walkPairs_filter_env (env : Env) (directory : String) :
    walkPairs
      { env with walk := fun d => (env.walk d).map (fun rf => (rf.1, rf.2.filter supportedFile)) }
      directory
      = (walkPairs env directory).filter (fun rf => supportedFile rf.2) := by
  show ((env.walk directory).map (fun rf => (rf.1, rf.2.filter supportedFile))).flatMap
        (fun rf => rf.2.map (fun f => (rf.1, f)))
      = ((env.walk directory).flatMap (fun rf => rf.2.map (fun f => (rf.1, f)))).filter
        (fun rf => supportedFile rf.2)
  induction env.walk directory with
  | nil => rfl
  | cons a l ih => simp [List.flatMap_cons, List.filter_append, ih, map_pair_filter]

lemma analyze_loop_env_walk (env : Env) (w : String → List (String × List String))
    (k : ℕ) (s a : Bool) :
    ∀ (fs : List (String × String)) (st : DirSt),
      analyze_loop { env with walk := w } k s a st fs = analyze_loop env k s a st fs := by
  intro fs
  induction fs with
  | nil => intro st; rfl
  | cons rf rest ih =>
    intro st
    have hf : analyze_file { env with walk := w } k s a st rf.1 rf.2
        = analyze_file env k s a st rf.1 rf.2 := rfl
    rcases haf : analyze_file env k s a st rf.1 rf.2 with ⟨st1, e⟩
    cases e with
    | none =>
      rw [analyze_loop_cons_none rest (hf.trans haf), analyze_loop_cons_none rest haf]
      exact ih st1
    | some ex =>
      rw [analyze_loop_cons_some rest (hf.trans haf), analyze_loop_cons_some rest haf]

lemma analyze_file_agg_step {env : Env} {k : ℕ} {s : Bool} (st : DirSt)
    (root file : String) {v : List String} {c : Cache} {l : List LogEntry}
    (hsup : supportedFile file = true)
    (he : extract_colors env st.cache (pathJoin root file) k s = ⟨v, c, l⟩)
    (hne : v ≠ []) (hdec : ∀ x ∈ v, (decodeColor x).isSome = true) :
    analyze_file env k s true st root file
      = (⟨dictInsert st.results file v,
          fun j => addTriple (st.aggregate_colors j)
            (((v.get? j).bind decodeColor).getD (0, 0, 0)),
          st.image_count + 1, c, st.log ++ LogEntry.info :: l⟩, none) := by
  have hacc := @accumPalette_zero v st.aggregate_colors hdec
  simp [analyze_file, hsup, he, hne, hacc]

lemma analyze_directory_agg_finish {env : Env} {cache : Cache} {directory : String}
    {k : ℕ} {s : Bool} {stF : DirSt} {pal : List String}
    (hloop : analyze_loop env k s true ⟨[], fun _ => (0, 0, 0), 0, cache, []⟩
      (walkPairs env directory) = (stF, none))
    (hpos : 0 < stF.image_count)
    (hmap : mapOpt (fun i => rgb2hex (avgColor (stF.aggregate_colors i) stF.image_count))
      (List.range k) = some pal) :
    analyze_directory env cache directory k s true
      = (Except.ok (AnalyzeRet.palette pal), stF.cache, stF.log) := by
  simp only [analyze_directory]
  rw [hloop]
  dsimp only
  rw [if_pos (And.intro (by trivial) hpos), hmap]

lemma collectPalettes_nil (env : Env) (k : ℕ) (s : Bool) (cache : Cache) :
    collectPalettes env k s cache [] = [] := rfl

lemma collectPalettes_cons_ne {env : Env} {k : ℕ} {s : Bool} {cache : Cache}
    {rf : String × String} {v : List String} {c : Cache} {l : List LogEntry}
    (rest : List (String × String)) (hsup : supportedFile rf.2 = true)
    (he : extract_colors env cache (pathJoin rf.1 rf.2) k s = ⟨v, c, l⟩)
    (hne : v ≠ []) :
    collectPalettes env k s cache (rf :: rest) = v :: collectPalettes env k s c rest := by
  simp [collectPalettes, hsup, he, hne]

lemma collectPalettes_cons_empty {env : Env} {k : ℕ} {s : Bool} {cache : Cache}
    {rf : String × String} {c : Cache} {l : List LogEntry}
    (rest : List (String × String)) (hsup : supportedFile rf.2 = true)
    (he : extract_colors env cache (pathJoin rf.1 rf.2) k s = ⟨[], c, l⟩) :
    collectPalettes env k s cache (rf :: rest) = collectPalettes env k s c rest := by
  simp [collectPalettes, hsup, he]

lemma enumFrom_map_numbered (cs : List String) :
    ∀ n, (List.enumFrom n cs).map
        (fun ic => "Color " ++ toString (ic.1 + 1) ++ ": " ++ ic.2)
      = numberedLines (n + 1) cs := by
  induction cs with
  | nil => intro n; rfl
  | cons c rest ih =>
    intro n
    simp only [List.enumFrom, List.map_cons, numberedLines, ih]

/-! Evaluation lemmas for the concrete test worlds.  The kernel cannot
reduce `Rat` arithmetic (its operations normalize through `Nat.gcd`),
so the rational computations are established through `norm_num` and the
rest by kernel evaluation. -/

lemma roundHalfEven_intCast (n : ℤ) : roundHalfEven ((n : ℚ)) = n := by
  unfold roundHalfEven
  rw [Int.floor_intCast, if_neg (by norm_num), round_intCast]

lemma roundHalfEven_255_half : roundHalfEven ((255 : ℚ)/2) = 128 := by
  unfold roundHalfEven
  have hf : ⌊(255 : ℚ)/2⌋ = 127 := by
    rw [Int.floor_eq_iff]
    norm_num
  rw [hf, if_pos (by norm_num), if_neg (by decide)]
  decide

lemma rgb2hex_eval {x y z : ℚ} {a b c : ℤ}
    (hx : roundHalfEven (x * 255) = a) (hy : roundHalfEven (y * 255) = b)
    (hz : roundHalfEven (z * 255) = c)
    (h0 : 0 ≤ x ∧ x ≤ 1 ∧ 0 ≤ y ∧ y ≤ 1 ∧ 0 ≤ z ∧ z ≤ 1) :
    rgb2hex (x, y, z)
      = some (String.mk ('#' :: (hexByte a.toNat ++ (hexByte b.toNat ++ hexByte c.toNat)))) := by
  unfold rgb2hex
  rw [if_pos h0]
  dsimp only
  rw [hx, hy, hz]

lemma roundHalfEven_one_mul : roundHalfEven ((1 : ℚ) * 255) = 255 := by
  rw [show (1 : ℚ) * 255 = ((255 : ℤ) : ℚ) from by norm_num]
  exact roundHalfEven_intCast 255

lemma roundHalfEven_zero_mul : roundHalfEven ((0 : ℚ) * 255) = 0 := by
  rw [show (0 : ℚ) * 255 = ((0 : ℤ) : ℚ) from by norm_num]
  exact roundHalfEven_intCast 0

lemma rgb2hex_red : rgb2hex (1, 0, 0) = some "#ff0000" := by
  rw [rgb2hex_eval roundHalfEven_one_mul roundHalfEven_zero_mul roundHalfEven_zero_mul
    (by norm_num)]
  decide

lemma rgb2hex_blue : rgb2hex (0, 0, 1) = some "#0000ff" := by
  rw [rgb2hex_eval roundHalfEven_zero_mul roundHalfEven_zero_mul roundHalfEven_one_mul
    (by norm_num)]
  decide

lemma rgb2hex_black : rgb2hex (0, 0, 0) = some "#000000" := by
  rw [rgb2hex_eval roundHalfEven_zero_mul roundHalfEven_zero_mul roundHalfEven_zero_mul
    (by norm_num)]
  decide

lemma rgb2hex_white : rgb2hex (1, 1, 1) = some "#ffffff" := by
  rw [rgb2hex_eval roundHalfEven_one_mul roundHalfEven_one_mul roundHalfEven_one_mul
    (by norm_num)]
  decide

lemma rgb2hex_avg_purple :
    rgb2hex (avgColor (255, 0, 255) 2) = some "#800080" := by
  unfold avgColor
  dsimp only
  have hx : roundHalfEven ((((255 : ℕ) : ℚ) / ((2 : ℕ) : ℚ) / 255) * 255) = 128 := by
    rw [show (((255 : ℕ) : ℚ) / ((2 : ℕ) : ℚ) / 255) * 255 = (255 : ℚ)/2 from by
      push_cast
      norm_num]
    exact roundHalfEven_255_half
  have hy : roundHalfEven ((((0 : ℕ) : ℚ) / ((2 : ℕ) : ℚ) / 255) * 255) = 0 := by
    rw [show (((0 : ℕ) : ℚ) / ((2 : ℕ) : ℚ) / 255) * 255 = ((0 : ℤ) : ℚ) from by
      push_cast
      norm_num]
    exact roundHalfEven_intCast 0
  rw [rgb2hex_eval hx hy hx (by push_cast; norm_num)]
  decide

lemma envOne_extract_k1 : extract_colors envOne [] "img.png" 1 false
    = ⟨["#ff0000"], [("img.png", ["#ff0000"])], []⟩ :=
  @extract_colors_fresh_success envOne [] "img.png" 1 false
    [((1 : ℚ), (0 : ℚ), (0 : ℚ))] ["#ff0000"]
    rfl rfl (by decide) (by simp only [mapOpt, rgb2hex_red]) rfl

lemma envOne_extract_k2 : extract_colors envOne [] "img.png" 2 false
    = ⟨["#000000", "#ffffff"], [("img.png", ["#000000", "#ffffff"])], []⟩ :=
  @extract_colors_fresh_success envOne [] "img.png" 2 false
    [((0 : ℚ), (0 : ℚ), (0 : ℚ)), ((1 : ℚ), (1 : ℚ), (1 : ℚ))] ["#000000", "#ffffff"]
    rfl rfl (by decide) (by simp only [mapOpt, rgb2hex_black, rgb2hex_white]) rfl

lemma envTwoSolid_extract_a : extract_colors envTwoSolid [] "imgs/a.png" 1 false
    = ⟨["#ff0000"], [("imgs/a.png", ["#ff0000"])], []⟩ :=
  @extract_colors_fresh_success envTwoSolid [] "imgs/a.png" 1 false
    [((1 : ℚ), (0 : ℚ), (0 : ℚ))] ["#ff0000"]
    rfl rfl (by decide) (by simp only [mapOpt, rgb2hex_red]) rfl

lemma envTwoSolid_extract_b :
    extract_colors envTwoSolid [("imgs/a.png", ["#ff0000"])] "imgs/b.png" 1 false
      = ⟨["#0000ff"], [("imgs/a.png", ["#ff0000"]), ("imgs/b.png", ["#0000ff"])], []⟩ := by
  have h := @extract_colors_fresh_success envTwoSolid [("imgs/a.png", ["#ff0000"])]
    "imgs/b.png" 1 false [((0 : ℚ), (0 : ℚ), (1 : ℚ))] ["#0000ff"]
    rfl (by decide) (by decide) (by simp only [mapOpt, rgb2hex_blue]) rfl
  rw [h, show dictInsert [("imgs/a.png", ["#ff0000"])] "imgs/b.png" ["#0000ff"]
      = [("imgs/a.png", ["#ff0000"]), ("imgs/b.png", ["#0000ff"])] from by decide]

lemma envDup_extract_s1 : extract_colors envDup [] "d/s1/x.png" 1 false
    = ⟨["#000000"], [("d/s1/x.png", ["#000000"])], []⟩ :=
  @extract_colors_fresh_success envDup [] "d/s1/x.png" 1 false
    [((0 : ℚ), (0 : ℚ), (0 : ℚ))] ["#000000"]
    rfl rfl (by decide) (by simp only [mapOpt, rgb2hex_black]) rfl

lemma envDup_extract_s2 :
    extract_colors envDup [("d/s1/x.png", ["#000000"])] "d/s2/x.png" 1 false
      = ⟨["#ffffff"], [("d/s1/x.png", ["#000000"]), ("d/s2/x.png", ["#ffffff"])], []⟩ := by
  have h := @extract_colors_fresh_success envDup [("d/s1/x.png", ["#000000"])]
    "d/s2/x.png" 1 false [((1 : ℚ), (1 : ℚ), (1 : ℚ))] ["#ffffff"]
    rfl (by decide) (by decide) (by simp only [mapOpt, rgb2hex_white]) rfl
  rw [h, show dictInsert [("d/s1/x.png", ["#000000"])] "d/s2/x.png" ["#ffffff"]
      = [("d/s1/x.png", ["#000000"]), ("d/s2/x.png", ["#ffffff"])] from by decide]

lemma envTwoSolid_collect :
    collectPalettes envTwoSolid 1 false [] (walkPairs envTwoSolid "imgs")
      = [["#ff0000"], ["#0000ff"]] := by
  rw [show walkPairs envTwoSolid "imgs" = [("imgs", "a.png"), ("imgs", "b.png")] from by
    decide]
  rw [collectPalettes_cons_ne _ (by decide) envTwoSolid_extract_a (by decide),
    collectPalettes_cons_ne _ (by decide) envTwoSolid_extract_b (by decide)]
  rfl

lemma envTwoSolid_aggregate_eval :
    analyze_directory envTwoSolid [] "imgs" 1 false true
      = (Except.ok (AnalyzeRet.palette ["#800080"]),
         [("imgs/a.png", ["#ff0000"]), ("imgs/b.png", ["#0000ff"])],
         [LogEntry.info, LogEntry.info]) := by
  have h1 : analyze_file envTwoSolid 1 false true
        (⟨[], fun _ => (0, 0, 0), 0, [], []⟩ : DirSt) "imgs" "a.png"
      = (stTwoSolidA, none) :=
    analyze_file_agg_step (⟨[], fun _ => (0, 0, 0), 0, [], []⟩ : DirSt) "imgs" "a.png"
      (by decide) envTwoSolid_extract_a (by decide) (by decide)
  have h2 : analyze_file envTwoSolid 1 false true stTwoSolidA "imgs" "b.png"
      = (stTwoSolidAB, none) :=
    analyze_file_agg_step stTwoSolidA "imgs" "b.png"
      (by decide) envTwoSolid_extract_b (by decide) (by decide)
  have hloop : analyze_loop envTwoSolid 1 false true
        (⟨[], fun _ => (0, 0, 0), 0, [], []⟩ : DirSt) (walkPairs envTwoSolid "imgs")
      = (stTwoSolidAB, none) := by
    rw [show walkPairs envTwoSolid "imgs" = [("imgs", "a.png"), ("imgs", "b.png")] from by
      decide]
    rw [analyze_loop_cons_none _ h1, analyze_loop_cons_none _ h2, analyze_loop_nil]
  have hmap : mapOpt (fun i => rgb2hex (avgColor (stTwoSolidAB.aggregate_colors i)
        stTwoSolidAB.image_count)) (List.range 1) = some ["#800080"] := by
    rw [show List.range 1 = [0] from rfl]
    simp only [mapOpt]
    rw [show stTwoSolidAB.aggregate_colors 0 = ((255 : ℕ), (0 : ℕ), (255 : ℕ)) from by
      decide]
    rw [show stTwoSolidAB.image_count = 2 from rfl]
    rw [rgb2hex_avg_purple]
  exact analyze_directory_agg_finish hloop (by decide) hmap

/-! Theorems for the individual specification claims. -/

/-- Claim C1, counterexample: a first call on `img.png` succeeds and
caches `["#ff0000"]`; after the file disappears from disk
(`envOneGone`), a second call on the same path returns `[]` instead of
the cached list — the existence check at the top of `extract_colors`
fires before the cache lookup, so removal is not survived. -/
theorem deleted_file_returns_empty_despite_cache :
    (extract_colors envOne [] "img.png" 1 false).ret = ["#ff0000"] ∧
    (extract_colors envOne [] "img.png" 1 false).ret ≠ [] ∧
    dictGet (extract_colors envOne [] "img.png" 1 false).cache "img.png"
      = some ["#ff0000"] ∧
    (extract_colors envOneGone (extract_colors envOne [] "img.png" 1 false).cache
      "img.png" 1 false).ret = [] ∧
    (extract_colors envOneGone (extract_colors envOne [] "img.png" 1 false).cache
      "img.png" 1 false).ret ≠ (extract_colors envOne [] "img.png" 1 false).ret := by
  rw [envOne_extract_k1]
  rw [@extract_colors_missing envOneGone [("img.png", ["#ff0000"])] "img.png" 1 false rfl]
  refine ⟨rfl, by decide, rfl, rfl, by decide⟩

/-- Claim C1 (amended): once a call has returned a non-empty list for a
path, any later call on the same path (whatever its color count or
display flag) returns that identical list straight from the cache — one
info log, no re-extraction, regardless of the file's content on disk —
provided the path still exists; if the path was removed, the later call
instead returns the empty list with one error log, because the
existence check precedes the cache lookup. -/
theorem cached_palette_stable_while_path_exists
    (env : Env) (cache : Cache) (p : String) (k : ℕ) (s : Bool)
    (hne : (extract_colors env cache p k s).ret ≠ []) :
    (∀ (env2 : Env) (k2 : ℕ) (s2 : Bool), env2.pathExists p = true →
      extract_colors env2 (extract_colors env cache p k s).cache p k2 s2
        = ⟨(extract_colors env cache p k s).ret,
           (extract_colors env cache p k s).cache, [LogEntry.info]⟩) ∧
    (∀ (env2 : Env) (k2 : ℕ) (s2 : Bool), env2.pathExists p = false →
      extract_colors env2 (extract_colors env cache p k s).cache p k2 s2
        = ⟨[], (extract_colors env cache p k s).cache, [LogEntry.error]⟩) := by
  have hlock := extract_colors_ret_locked hne
  constructor
  · intro env2 k2 s2 hex
    exact extract_colors_cached hex hlock
  · intro env2 k2 s2 hex
    exact extract_colors_missing hex

/-- Claim C1 witness: the stable-cache branch instantiated on the
concrete world `envOne`. -/
theorem cached_palette_stable_while_path_exists_witness :
    extract_colors envOne (extract_colors envOne [] "img.png" 1 false).cache
        "img.png" 3 true
      = ⟨(extract_colors envOne [] "img.png" 1 false).ret,
         (extract_colors envOne [] "img.png" 1 false).cache, [LogEntry.info]⟩ :=
  (cached_palette_stable_while_path_exists envOne [] "img.png" 1 false
    (by rw [envOne_extract_k1]; decide)).1 envOne 3 true rfl

/-- Claim C3, counterexample: in a world whose renderer raises
(`envRender`), the `try` body of `extract_colors` indeed ends in the
raised exception, but the surrounding `except Exception` clause catches
it: the call returns normally with `[]` and one error log — the failure
does not propagate to the caller, contrary to the claim. -/
theorem render_failure_is_caught_not_propagated :
    extract_colors_try envRender [] "img.png" 1 true
      = (Except.error PyExc.other, [("img.png", ["#ff0000"])], []) ∧
    extract_colors envRender [] "img.png" 1 true
      = ⟨[], [("img.png", ["#ff0000"])], [LogEntry.error]⟩ := by
  have hcl : envRender.cluster "img.png" 1 = some [((1 : ℚ), (0 : ℚ), (0 : ℚ))] := by
    decide
  have hhx : mapOpt rgb2hex [((1 : ℚ), (0 : ℚ), (0 : ℚ))] = some ["#ff0000"] := by
    simp only [mapOpt, rgb2hex_red]
  have hpe : envRender.pathExists "img.png" = true := rfl
  have hrf : envRender.renderFails ["#ff0000"] = true := rfl
  have hnc : dictGet ([] : Cache) "img.png" = none := rfl
  exact ⟨extract_colors_try_render_fail hpe hnc hcl hhx hrf,
    extract_colors_render_fail hpe hnc hcl hhx hrf⟩

/-- Claim C3 (amended): a failure raised by the palette renderer during
`extract_colors(path, k, show=true)` is caught by the function's broad
`except Exception` clause — the display call sits inside the `try`
block — so the caller sees a normal return of the empty list plus one
error-level log record (with the palette already cached), not a raised
failure. -/
theorem render_failure_logged_and_converted_to_empty
    (env : Env) (cache : Cache) (p : String) (k : ℕ) {cs : List Rgb} {hs : List String}
    (hex : env.pathExists p = true) (hnc : dictGet cache p = none)
    (hcl : env.cluster p k = some cs) (hhex : mapOpt rgb2hex cs = some hs)
    (hrf : env.renderFails hs = true) :
    extract_colors_try env cache p k true
      = (Except.error PyExc.other, dictInsert cache p hs, []) ∧
    extract_colors env cache p k true = ⟨[], dictInsert cache p hs, [LogEntry.error]⟩ := by
  constructor
  · simp [extract_colors_try, hex, hnc, hcl, hhex, hrf]
  · exact extract_colors_render_fail hex hnc hcl hhex hrf

/-- Claim C3 witness: the amended statement instantiated on the concrete
failing-renderer world `envRender`. -/
theorem render_failure_logged_and_converted_to_empty_witness :
    extract_colors_try envRender [] "img.png" 1 true
      = (Except.error PyExc.other, dictInsert [] "img.png" ["#ff0000"], []) ∧
    extract_colors envRender [] "img.png" 1 true
      = ⟨[], dictInsert [] "img.png" ["#ff0000"], [LogEntry.error]⟩ :=
  @render_failure_logged_and_converted_to_empty envRender [] "img.png" 1
    [((1 : ℚ), (0 : ℚ), (0 : ℚ))] ["#ff0000"]
    rfl rfl (by decide) (by simp only [mapOpt, rgb2hex_red]) rfl

/-- Claim C4: on a path that does not exist on disk (and is not cached),
`extract_colors` raises `FileNotFoundError` internally, catches it, and
returns the empty list normally with exactly one error-level log record
and no info record; the cache is untouched. -/
theorem missing_path_returns_empty_with_one_error
    (env : Env) (cache : Cache) (p : String) (k : ℕ) (s : Bool)
    (h : env.pathExists p = false) (hnc : dictGet cache p = none) :
    extract_colors env cache p k s = ⟨[], cache, [LogEntry.error]⟩ ∧
    (extract_colors env cache p k s).log.count LogEntry.error = 1 ∧
    (extract_colors env cache p k s).log.count LogEntry.info = 0 := by
  have h1 := @extract_colors_missing env cache p k s h
  refine ⟨h1, ?_, ?_⟩ <;> rw [h1] <;> rfl

/-- Claim C4 witness: a nonexistent path in the concrete world
`envOneGone`. -/
theorem missing_path_returns_empty_with_one_error_witness :
    extract_colors envOneGone [] "img.png" 1 false = ⟨[], [], [LogEntry.error]⟩ ∧
    (extract_colors envOneGone [] "img.png" 1 false).log.count LogEntry.error = 1 ∧
    (extract_colors envOneGone [] "img.png" 1 false).log.count LogEntry.info = 0 :=
  missing_path_returns_empty_with_one_error envOneGone [] "img.png" 1 false rfl rfl

/-- Claim C9: on a renderer failure the call is not atomic — line 57
caches the palette before line 61 displays it — so the failing call
returns `[]` while the cache already holds the non-empty palette, and
in the same world every subsequent call on that path (any color count,
any display flag, any cache still holding the entry) returns the cached
non-empty palette with a cache-hit info log. -/
theorem render_failure_cache_written_before_display
    (env : Env) (cache : Cache) (p : String) (k : ℕ) {cs : List Rgb} {hs : List String}
    (hex : env.pathExists p = true) (hnc : dictGet cache p = none)
    (hcl : env.cluster p k = some cs) (hhex : mapOpt rgb2hex cs = some hs)
    (hne : hs ≠ []) (hrf : env.renderFails hs = true) :
    extract_colors env cache p k true = ⟨[], dictInsert cache p hs, [LogEntry.error]⟩ ∧
    dictGet (dictInsert cache p hs) p = some hs ∧
    ∀ (cache2 : Cache) (k2 : ℕ) (s2 : Bool), dictGet cache2 p = some hs →
      extract_colors env cache2 p k2 s2 = ⟨hs, cache2, [LogEntry.info]⟩ := by
  refine ⟨extract_colors_render_fail hex hnc hcl hhex hrf,
    dictGet_dictInsert_self _ _ _, ?_⟩
  intro cache2 k2 s2 hc2
  exact extract_colors_cached hex hc2

/-- Claim C9 witness: the non-atomicity scenario on the concrete
failing-renderer world `envRender`. -/
theorem render_failure_cache_written_before_display_witness :
    extract_colors envRender [] "img.png" 1 true
      = ⟨[], dictInsert [] "img.png" ["#ff0000"], [LogEntry.error]⟩ ∧
    dictGet (dictInsert [] "img.png" ["#ff0000"]) "img.png" = some ["#ff0000"] ∧
    extract_colors envRender (dictInsert [] "img.png" ["#ff0000"]) "img.png" 2 false
      = ⟨["#ff0000"], dictInsert [] "img.png" ["#ff0000"], [LogEntry.info]⟩ := by
  have h := @render_failure_cache_written_before_display envRender [] "img.png" 1
    [((1 : ℚ), (0 : ℚ), (0 : ℚ))] ["#ff0000"]
    rfl rfl (by decide) (by simp only [mapOpt, rgb2hex_red]) (by decide) rfl
  exact ⟨h.1, h.2.1, h.2.2 (dictInsert [] "img.png" ["#ff0000"]) 2 false (by decide)⟩

/-- Claim C10: `analyze_directory` records palettes under the bare file
name: when the walk visits two same-named files in different
subdirectories and both extract to non-empty palettes, the returned
mapping holds a single entry for that name, with the palette of the
file visited last. -/
theorem results_keyed_by_basename_last_wins
    (env : Env) (cache : Cache) (directory : String) (k : ℕ) (s : Bool)
    (r1 r2 f : String) (hwalk : env.walk directory = [(r1, [f]), (r2, [f])])
    (hsup : supportedFile f = true)
    {p1 p2 : List String} {c1 c2 : Cache} {l1 l2 : List LogEntry}
    (h1 : extract_colors env cache (pathJoin r1 f) k s = ⟨p1, c1, l1⟩)
    (h2 : extract_colors env c1 (pathJoin r2 f) k s = ⟨p2, c2, l2⟩)
    (hne1 : p1 ≠ []) (hne2 : p2 ≠ []) :
    analyze_directory env cache directory k s false
      = (Except.ok (AnalyzeRet.dict [(f, p2)]), c2,
         (LogEntry.info :: l1) ++ (LogEntry.info :: l2)) := by
  have hw : walkPairs env directory = [(r1, f), (r2, f)] := by
    simp [walkPairs, hwalk]
  have hstep1 : analyze_file env k s false ⟨[], fun _ => (0, 0, 0), 0, cache, []⟩ r1 f
      = (⟨[(f, p1)], fun _ => (0, 0, 0), 0, c1, LogEntry.info :: l1⟩, none) := by
    simp [analyze_file, hsup, h1, hne1, dictInsert]
  have hstep2 : analyze_file env k s false
        ⟨[(f, p1)], fun _ => (0, 0, 0), 0, c1, LogEntry.info :: l1⟩ r2 f
      = (⟨[(f, p2)], fun _ => (0, 0, 0), 0, c2,
          (LogEntry.info :: l1) ++ (LogEntry.info :: l2)⟩, none) := by
    simp [analyze_file, hsup, h2, hne2, dictInsert]
  simp only [analyze_directory]
  rw [hw, analyze_loop_cons_none _ hstep1, analyze_loop_cons_none _ hstep2,
    analyze_loop_nil]
  rfl

/-- Claim C10 witness: the two same-named files of the concrete world
`envDup`, where the later (white) palette wins. -/
theorem results_keyed_by_basename_last_wins_witness :
    analyze_directory envDup [] "d" 1 false false
      = (Except.ok (AnalyzeRet.dict [("x.png", ["#ffffff"])]),
         [("d/s1/x.png", ["#000000"]), ("d/s2/x.png", ["#ffffff"])],
         (LogEntry.info :: []) ++ (LogEntry.info :: [])) :=
  results_keyed_by_basename_last_wins envDup [] "d" 1 false "d/s1" "d/s2" "x.png"
    rfl (by decide) envDup_extract_s1 envDup_extract_s2 (by decide) (by decide)

/-- Claim C5, counterexample: `img.png` is a valid image for either
cluster count, yet after a call with `num_colors = 2` has populated the
cache, a call with `num_colors = 1` returns the cached two-color list —
length 2, exceeding the requested bound of 1. -/
theorem stale_cache_palette_exceeds_requested_count :
    (envOne.cluster "img.png" 1).isSome = true ∧
    (extract_colors envOne [] "img.png" 2 false).ret.length = 2 ∧
    (extract_colors envOne (extract_colors envOne [] "img.png" 2 false).cache
      "img.png" 1 false).ret.length = 2 ∧
    ¬((extract_colors envOne (extract_colors envOne [] "img.png" 2 false).cache
      "img.png" 1 false).ret.length ≤ 1) := by
  rw [envOne_extract_k2]
  dsimp only
  rw [show extract_colors envOne [("img.png", ["#000000", "#ffffff"])] "img.png" 1 false
      = ⟨["#000000", "#ffffff"], [("img.png", ["#000000", "#ffffff"])], [LogEntry.info]⟩
    from extract_colors_cached rfl (by decide)]
  refine ⟨by decide, rfl, rfl, by decide⟩

/-- Claim C5 (amended): on a path that is not yet cached,
`extract_colors` returns at most `num_colors` colors (exactly that many
when the pipeline succeeds, as KMeans yields one center per requested
cluster), and every returned string matches `^#[0-9a-f]{6}$`; every
aggregated palette returned by `analyze_directory` likewise consists
only of such strings.  A cache hit, however, replays the palette of an
earlier call, whose length can exceed the currently requested count. -/
theorem fresh_extraction_bounded_and_hex_wellformed
    (env : Env) (cache : Cache) (p : String) (k : ℕ) (s : Bool)
    (hnc : dictGet cache p = none) (hk : clusterSizeOk env p k = true) :
    ((extract_colors env cache p k s).ret.length ≤ k ∧
      ∀ c ∈ (extract_colors env cache p k s).ret, isHexColor c = true) ∧
    (∀ (env2 : Env) (cache2 : Cache) (dir2 : String) (k2 : ℕ) (s2 : Bool)
      (pal : List String) (c2 : Cache) (l2 : List LogEntry),
      analyze_directory env2 cache2 dir2 k2 s2 true
        = (Except.ok (AnalyzeRet.palette pal), c2, l2) →
      ∀ c ∈ pal, isHexColor c = true) := by
  constructor
  · rcases extract_colors_fresh_ret (k := k) (s := s) hnc with h | ⟨cs, hcl, hmap⟩
    · rw [h]
      exact ⟨by simp, by simp⟩
    · constructor
      · have hlen := mapOpt_length rgb2hex cs _ hmap
        have hcsk : cs.length = k := by
          unfold clusterSizeOk at hk
          rw [hcl] at hk
          dsimp only at hk
          simp only [beq_iff_eq] at hk
          exact hk
        omega
      · intro c hc
        obtain ⟨x, _, hfx⟩ := mapOpt_mem rgb2hex cs _ hmap c hc
        exact isHexColor_rgb2hex hfx
  · intro env2 cache2 dir2 k2 s2 pal c2 l2 hres c hc
    simp only [analyze_directory] at hres
    rcases hloop : analyze_loop env2 k2 s2 true ⟨[], fun _ => (0, 0, 0), 0, cache2, []⟩
      (walkPairs env2 dir2) with ⟨stF, e⟩
    rw [hloop] at hres
    cases e with
    | some ex => simp at hres
    | none =>
      dsimp only at hres
      split at hres
      · rcases hm : mapOpt (fun i => rgb2hex (avgColor (stF.aggregate_colors i)
            stF.image_count)) (List.range k2) with _ | pal2
        · rw [hm] at hres
          simp at hres
        · rw [hm] at hres
          dsimp only at hres
          simp only [Prod.mk.injEq, Except.ok.injEq, AnalyzeRet.palette.injEq] at hres
          obtain ⟨hpal, _, _⟩ := hres
          obtain ⟨x, _, hfx⟩ := mapOpt_mem _ _ _ hm c (by rw [← hpal] at hc; exact hc)
          exact isHexColor_rgb2hex hfx
      · simp at hres

/-- Claim C5 witness: the fresh-extraction bound on the concrete world
`envOne`, and the well-formedness of the concrete aggregated palette of
`envTwoSolid`. -/
theorem fresh_extraction_bounded_and_hex_wellformed_witness :
    ((extract_colors envOne [] "img.png" 1 false).ret.length ≤ 1 ∧
      ∀ c ∈ (extract_colors envOne [] "img.png" 1 false).ret, isHexColor c = true) ∧
    (∀ c ∈ ["#800080"], isHexColor c = true) := by
  have h := fresh_extraction_bounded_and_hex_wellformed envOne [] "img.png" 1 false
    rfl (by decide)
  refine ⟨h.1, ?_⟩
  intro c hc
  exact h.2 envTwoSolid [] "imgs" 1 false ["#800080"]
    [("imgs/a.png", ["#ff0000"]), ("imgs/b.png", ["#0000ff"])]
    [LogEntry.info, LogEntry.info] envTwoSolid_aggregate_eval c hc

/-- Claim C6: with aggregation requested but no successfully extracted
image, the guard `image_count > 0` fails, so `analyze_directory` returns
the (empty) per-file mapping normally — no aggregated palette and no
division by zero. -/
theorem aggregate_without_success_returns_empty_mapping
    (env : Env) (cache : Cache) (directory : String) (k : ℕ) (s : Bool)
    (h : collectPalettes env k s cache (walkPairs env directory) = []) :
    ∃ c1 l1, analyze_directory env cache directory k s true
      = (Except.ok (AnalyzeRet.dict []), c1, l1) := by
  obtain ⟨h1, h2, h3⟩ := analyze_loop_no_success env k s true (walkPairs env directory)
    ⟨[], fun _ => (0, 0, 0), 0, cache, []⟩ h
  rcases hloop : analyze_loop env k s true ⟨[], fun _ => (0, 0, 0), 0, cache, []⟩
    (walkPairs env directory) with ⟨stF, e⟩
  rw [hloop] at h1 h2 h3
  have he : e = none := h1
  subst he
  have hres : stF.results = [] := h2
  have hc0 : stF.image_count = 0 := h3
  refine ⟨stF.cache, stF.log, ?_⟩
  simp only [analyze_directory]
  rw [hloop]
  dsimp only
  rw [if_neg (fun hcond => by rw [hc0] at hcond; exact absurd hcond.2 (by omega)), hres]

/-- Claim C6 witness: the world `envFail`, whose single image always
fails to decode. -/
theorem aggregate_without_success_returns_empty_mapping_witness :
    ∃ c1 l1, analyze_directory envFail [] "d" 1 false true
      = (Except.ok (AnalyzeRet.dict []), c1, l1) :=
  aggregate_without_success_returns_empty_mapping envFail [] "d" 1 false (by decide)

/-- Claim C7: `analyze_directory` without aggregation ignores files with
unsupported extensions entirely — removing every unsupported name from
the walk leaves the result unchanged, whatever those files contain —
and it returns a mapping with at most as many entries as there are
supported files, every recorded key being a supported file name. -/
theorem unsupported_files_ignored_and_entry_bound
    (env : Env) (cache : Cache) (directory : String) (k : ℕ) (s : Bool) :
    analyze_directory
        { env with
          walk := fun d => (env.walk d).map (fun rf => (rf.1, rf.2.filter supportedFile)) }
        cache directory k s false
      = analyze_directory env cache directory k s false ∧
    ∃ d c1 l1, analyze_directory env cache directory k s false
      = (Except.ok (AnalyzeRet.dict d), c1, l1) ∧
      d.length ≤ (walkPairs env directory).countP (fun rf => supportedFile rf.2) ∧
      ∀ key ∈ d.map Prod.fst, supportedFile key = true := by
  constructor
  · simp only [analyze_directory]
    rw [analyze_loop_env_walk, walkPairs_filter_env, analyze_loop_filter]
  · obtain ⟨h1, h2, h3⟩ := analyze_loop_no_agg env k s (walkPairs env directory)
      ⟨[], fun _ => (0, 0, 0), 0, cache, []⟩
    rcases hloop : analyze_loop env k s false ⟨[], fun _ => (0, 0, 0), 0, cache, []⟩
      (walkPairs env directory) with ⟨stF, e⟩
    rw [hloop] at h1 h2 h3
    have he : e = none := h1
    subst he
    refine ⟨stF.results, stF.cache, stF.log, ?_, ?_, ?_⟩
    · simp only [analyze_directory]
      rw [hloop]
      dsimp only
      rw [if_neg (fun hcond => by exact absurd hcond.1 (by decide))]
    · simpa using h2
    · intro key hk
      rcases h3 key hk with hk2 | hk2
      · simp at hk2
      · exact hk2

/-- Claim C8: the report consists of the fixed header line followed by
one line per color of the form `Color N: c`, `N` being the 1-based
index — shown as the line decomposition for any non-empty color list,
and concretely on the two-color example of the claim. -/
theorem format_colors_header_and_numbered_lines :
    (∀ colors : List String, colors ≠ [] →
      format_colors colors
        = strJoin "\n" ("Dominant colors extracted:" :: numberedLines 1 colors)) ∧
    format_colors ["#112233", "#445566"]
      = "Dominant colors extracted:\nColor 1: #112233\nColor 2: #445566" := by
  constructor
  · intro colors hne
    have hlines : colors.enum.map
        (fun ic => "Color " ++ toString (ic.1 + 1) ++ ": " ++ ic.2)
        = numberedLines 1 colors := by
      have h := enumFrom_map_numbered colors 0
      simpa [List.enum] using h
    have hlne : numberedLines 1 colors ≠ [] := by
      cases colors with
      | nil => exact absurd rfl hne
      | cons c rest => simp [numberedLines]
    rw [strJoin_cons _ _ _ hlne]
    simp only [format_colors]
    rw [hlines]
    rfl
  · rfl

/-- Claim C8 witness: the decomposition applied to the two-color example. -/
theorem format_colors_header_and_numbered_lines_witness :
    format_colors ["#112233", "#445566"]
      = strJoin "\n"
          ("Dominant colors extracted:" :: numberedLines 1 ["#112233", "#445566"]) :=
  format_colors_header_and_numbered_lines.1 ["#112233", "#445566"] (by decide)

/-- Claim C2, counterexample: in the world `envTwoSolid` the two images
extract to `["#ff0000"]` and `["#0000ff"]` with `k = 1`, exactly the
claim's premise, yet the aggregated palette is `["#800080"]` and not
`["#7f007f"]`: the averaged channel 127.5 is rounded to the even byte
128 by the hex conversion, not truncated to 127. -/
theorem aggregate_red_blue_rounds_to_800080 :
    (extract_colors envTwoSolid [] "imgs/a.png" 1 false).ret = ["#ff0000"] ∧
    (extract_colors envTwoSolid [("imgs/a.png", ["#ff0000"])] "imgs/b.png" 1 false).ret
      = ["#0000ff"] ∧
    analyze_directory envTwoSolid [] "imgs" 1 false true
      = (Except.ok (AnalyzeRet.palette ["#800080"]),
         [("imgs/a.png", ["#ff0000"]), ("imgs/b.png", ["#0000ff"])],
         [LogEntry.info, LogEntry.info]) ∧
    "#800080" ≠ "#7f007f" :=
  ⟨by rw [envTwoSolid_extract_a], by rw [envTwoSolid_extract_b],
    envTwoSolid_aggregate_eval, by decide⟩

/-- Claim C2 (amended): with aggregation on, when at least one image is
successfully extracted and every successful palette has exactly `k`
well-formed colors, the i-th aggregated entry is the hex conversion of
the channel-wise average of the i-th colors — the accumulated sum
divided by the image count and by 255; on the two-image red/blue
instance with k = 1 the aggregated result is `["#800080"]` (not
`#7f007f`), because the conversion rounds the exact half 127.5 to the
even byte 128. -/
theorem aggregated_palette_is_channel_average
    (env : Env) (cache : Cache) (directory : String) (k : ℕ) (s : Bool)
    (hne : collectPalettes env k s cache (walkPairs env directory) ≠ [])
    (hall : ∀ p ∈ collectPalettes env k s cache (walkPairs env directory),
      p.length = k ∧ ∀ c ∈ p, isHexColor c = true) :
    (∃ c1 l1, analyze_directory env cache directory k s true
      = (Except.ok (AnalyzeRet.palette ((List.range k).map (fun i =>
          (rgb2hex (avgColor
            (sumAt (collectPalettes env k s cache (walkPairs env directory)) i)
            (collectPalettes env k s cache (walkPairs env directory)).length)).getD ""))),
        c1, l1)) ∧
    analyze_directory envTwoSolid [] "imgs" 1 false true
      = (Except.ok (AnalyzeRet.palette ["#800080"]),
         [("imgs/a.png", ["#ff0000"]), ("imgs/b.png", ["#0000ff"])],
         [LogEntry.info, LogEntry.info]) := by
  refine ⟨?_, envTwoSolid_aggregate_eval⟩
  have hdec : ∀ p ∈ collectPalettes env k s cache (walkPairs env directory),
      ∀ c ∈ p, (decodeColor c).isSome = true :=
    fun p hp c hc => decodeColor_isSome_of_isHexColor ((hall p hp).2 c hc)
  obtain ⟨l1, l2, l3⟩ := analyze_loop_agg env k s (walkPairs env directory)
    ⟨[], fun _ => (0, 0, 0), 0, cache, []⟩ hdec
  rcases hloop : analyze_loop env k s true ⟨[], fun _ => (0, 0, 0), 0, cache, []⟩
    (walkPairs env directory) with ⟨stF, e⟩
  rw [hloop] at l1 l2 l3
  have he : e = none := l1
  subst he
  have hcnt : stF.image_count
      = (collectPalettes env k s cache (walkPairs env directory)).length := by
    simpa using l2
  have hpos : 0 < stF.image_count := by
    rw [hcnt]
    exact List.length_pos.mpr hne
  have hwf : ∀ p ∈ collectPalettes env k s cache (walkPairs env directory),
      ∀ c ∈ p, isHexColor c = true := fun p hp => (hall p hp).2
  have hmap : mapOpt (fun i => rgb2hex (avgColor (stF.aggregate_colors i)
        stF.image_count)) (List.range k)
      = some ((List.range k).map (fun i =>
          (rgb2hex (avgColor
            (sumAt (collectPalettes env k s cache (walkPairs env directory)) i)
            (collectPalettes env k s cache (walkPairs env directory)).length)).getD "")) := by
    apply mapOpt_eq_map
    intro i _
    have hagg : stF.aggregate_colors i
        = sumAt (collectPalettes env k s cache (walkPairs env directory)) i := by
      rw [l3]
      exact addTriple_zero_left _
    obtain ⟨b1, b2, b3⟩ := sumAt_le hwf i
    have hsome := rgb2hex_avgColor_isSome (List.length_pos.mpr hne) b1 b2 b3
    obtain ⟨str, hstr⟩ := Option.isSome_iff_exists.mp hsome
    show rgb2hex (avgColor (stF.aggregate_colors i) stF.image_count)
      = some ((rgb2hex (avgColor
          (sumAt (collectPalettes env k s cache (walkPairs env directory)) i)
          (collectPalettes env k s cache (walkPairs env directory)).length)).getD "")
    rw [hagg, hcnt, hstr]
    rfl
  exact ⟨stF.cache, stF.log, analyze_directory_agg_finish hloop hpos hmap⟩

/-- Claim C2 witness: the general average characterization instantiated
on the concrete world `envTwoSolid`. -/
theorem aggregated_palette_is_channel_average_witness :
    ∃ c1 l1, analyze_directory envTwoSolid [] "imgs" 1 false true
      = (Except.ok (AnalyzeRet.palette ((List.range 1).map (fun i =>
          (rgb2hex (avgColor
            (sumAt (collectPalettes envTwoSolid 1 false []
              (walkPairs envTwoSolid "imgs")) i)
            (collectPalettes envTwoSolid 1 false []
              (walkPairs envTwoSolid "imgs")).length)).getD ""))),
        c1, l1) :=
  (aggregated_palette_is_channel_average envTwoSolid [] "imgs" 1 false
    (by rw [envTwoSolid_collect]; decide)
    (by rw [envTwoSolid_collect]; decide)).1

end ColorDominant
